import Mathlib

/-!
# Monitoring extension of the integration network (`integration/nwo/monitoring`)

A shallow embedding of `monitoring.go`:

* the Prometheus scrape configuration that `GenerateArtifacts` assembles through
  `prometheusScrape`, `fabricScrapes` and `fscScrapes`;
* the container bring-up of `PostRun` (`dockerPrometheus`, `dockerGrafana`), as the
  sequence of calls issued to the container runtime.

Go strings are embedded as `String`, that is as sequences of characters (for texts
that are valid UTF-8 and a non-empty pattern, matching on bytes and matching on
characters find the same occurrences); the slices appended to in loops are lists, and
the loops are folds that append one element at a time, as the source does.  A Go
panic (indexing an empty slice, a failed type assertion) is `none`.

The types and methods of the topology (`fabric.Platform`, `fsc.Platform`,
`api.Context`) are declared outside the file at hand; they appear here with the
fields and methods the extension uses, as data the theorems quantify over.  The
body of the goroutines that forward the logs of a container is not part of the
embedding: the `go` statement is one step of the run.
-/

set_option autoImplicit false

/-! ## Library functions used by the extension -/

namespace strings

/-- The scan of Go's `strings.Replace` for a non-empty `old`: wherever `old` starts
the text, `new` is written and the text continues after that occurrence (instances
are replaced left to right and do not overlap); any other character is copied.
The first argument bounds the number of steps; the length of the text is enough. -/
def replaceScan (old new : List Char) : Nat → List Char → List Char
  | 0, s => s
  | fuel + 1, s =>
    if old.isPrefixOf s then
      new ++ replaceScan old new fuel (s.drop old.length)
    else
      match s with
      | [] => []
      | c :: t => c :: replaceScan old new fuel t

/-- Go's `strings.Replace(s, old, new, -1)` on the characters of its arguments:
every non-overlapping instance of `old` in `s` replaced by `new`, with no limit on
the number of replacements.  When `old` equals `new` the text is returned as it is;
an empty `old` matches at the beginning of the text and after each character. -/
def replaceChars (s old new : List Char) : List Char :=
  if old = new then s
  else if old = [] then new ++ s.flatMap (fun c => c :: new)
  else replaceScan old new s.length s

/-- Go's `strings.Replace(s, old, new, -1)`. -/
def Replace (s old new : String) : String :=
  ⟨replaceChars s.data old.data new.data⟩

/-- Go's `strings.Contains(s, substr)`: `substr` occurs within `s`. -/
def Contains (s substr : String) : Prop := substr.data <:+: s.data

instance (s substr : String) : Decidable (Contains s substr) :=
  inferInstanceAs (Decidable (substr.data <:+: s.data))

/-- Go's `strings.HasPrefix(s, pre)`: `s` begins with `pre`. -/
def HasPrefix (s pre : String) : Prop := pre.data <+: s.data

instance (s pre : String) : Decidable (HasPrefix s pre) :=
  inferInstanceAs (Decidable (pre.data <+: s.data))

/-- Go's `strings.HasSuffix(s, suffix)`: `s` ends with `suffix`. -/
def HasSuffix (s suffix : String) : Prop := suffix.data <:+ s.data

instance (s suffix : String) : Decidable (HasSuffix s suffix) :=
  inferInstanceAs (Decidable (suffix.data <:+ s.data))

/-- Some non-empty beginning of `a` is an ending of `b`. -/
def Overlap (a b : String) : Prop :=
  ∃ u : String, u ≠ "" ∧ HasPrefix a u ∧ HasSuffix b u

end strings

namespace strconv

/-- Go's `strconv.Itoa`: the decimal text of an integer. -/
def Itoa (i : Int) : String := toString i

end strconv

namespace time

/-- Go's `time.Second`, in nanoseconds (the unit of `time.Duration`). -/
def Second : Nat := 1000000000

end time

/-! ## The topology, as the extension reads it -/

namespace fabric

/-- An orderer of a Fabric platform; the extension reads its operation address. -/
structure Orderer where
  OperationAddress : String

/-- A peer organization of a Fabric platform; the extension reads its name. -/
structure Org where
  Name : String

/-- A peer of a Fabric platform; the extension reads its operation address. -/
structure Peer where
  OperationAddress : String

/-- The part of `*fabric.Platform` the extension calls: `Orderers()`, `PeerOrgs()`
and `PeersByOrg(fabricHost, orgName, includeAll)`. -/
structure Platform where
  Orderers : List Orderer
  PeerOrgs : List Org
  PeersByOrg : String → String → Bool → List Peer

end fabric

namespace fsc

/-- An application (FSC) node; the extension reads its name. -/
structure Peer where
  Name : String

/-- The part of `*fsc.Platform` the extension uses: the field `Peers` and the methods
`OperationAddress(peer)`, `NodeLocalTLSDir(peer)` and `CryptoPath()`. -/
structure Platform where
  Peers : List Peer
  OperationAddress : Peer → String
  NodeLocalTLSDir : Peer → String
  CryptoPath : String

end fsc

namespace api

/-- The two constants handed to `PlatformsByType`: `fabric.TopologyName` and
`fsc.TopologyName`. -/
inductive TopologyName where
  | fabric
  | fsc
  deriving DecidableEq

/-- A value of the interface `api.Platform` with its dynamic type: a
`*fabric.Platform`, a `*fsc.Platform`, or a platform of another type. -/
inductive Platform where
  | fabricPlatform (p : fabric.Platform)
  | fscPlatform (p : fsc.Platform)
  | otherPlatform

/-- The context `api.Context`, through its method `PlatformsByType`. -/
structure Context where
  PlatformsByType : TopologyName → List Platform

end api

namespace monitoring

/-- The interface `Platform` of the package (the docker client handle is part of
the runtime below). -/
structure Platform where
  HyperledgerExplorer : Bool
  GetContext : api.Context
  ConfigDir : String
  NetworkID : String
  PrometheusGrafana : Bool
  PrometheusPort : Int
  GrafanaPort : Int

/-- The extension: `type Extension struct { platform Platform }`. -/
structure Extension where
  platform : Platform

/-! ## The scrape configuration -/

/-- The `global` block of the Prometheus configuration. -/
structure Global where
  ScrapeInterval : String
  EvaluationInterval : String
  deriving DecidableEq, Repr

/-- One static target group. -/
structure StaticConfig where
  Targets : List String
  deriving DecidableEq, Repr

/-- The TLS block of a scrape job. -/
structure TLSConfig where
  CAFile : String
  CertFile : String
  KeyFile : String
  ServerName : String
  InsecureSkipVerify : Bool
  deriving DecidableEq, Repr

/-- One scrape job; `TLSConfig` is a pointer in the source, absent when nil. -/
structure ScrapeConfig where
  JobName : String
  Scheme : String
  StaticConfigs : List StaticConfig
  TLSConfig : Option TLSConfig := none
  deriving DecidableEq, Repr

/-- The Prometheus configuration document. -/
structure Prometheus where
  Global : Global
  ScrapeConfigs : List ScrapeConfig
  deriving DecidableEq, Repr

/-- `Extension.fscCryptoDir`: the crypto path of the first platform of type
`fsc.TopologyName`; panics when there is none or it is not a `*fsc.Platform`. -/
def fscCryptoDir (n : Extension) : Option String :=
  match n.platform.GetContext.PlatformsByType api.TopologyName.fsc with
  | api.Platform.fscPlatform platform :: _ => some platform.CryptoPath
  | _ => none

/-- `Extension.prometheusScrape`: appends the job by which Prometheus scrapes itself. -/
def prometheusScrape (n : Extension) (p : Prometheus) : Prometheus :=
  { p with ScrapeConfigs := p.ScrapeConfigs ++
      [{ JobName := "prometheus"
         Scheme := "http"
         StaticConfigs :=
           [{ Targets := ["prometheus:" ++ strconv.Itoa n.platform.PrometheusPort] }] }] }

/-- `Extension.fabricScrapes`: for each platform of type `fabric.TopologyName`, one
job `orderers` over the operation addresses of its orderers, then one job per peer
organization over the operation addresses of that organization's peers. -/
def fabricScrapes (n : Extension) (p : Prometheus) : Option Prometheus :=
  (n.platform.GetContext.PlatformsByType api.TopologyName.fabric).foldlM
    (fun p platform =>
      match platform with
      | api.Platform.fabricPlatform fabricPlatform =>
        let osc : ScrapeConfig :=
          { JobName := "orderers"
            Scheme := "http"
            StaticConfigs :=
              [{ Targets := fabricPlatform.Orderers.foldl
                   (fun targets orderer => targets ++ [orderer.OperationAddress]) [] }] }
        let p : Prometheus := { p with ScrapeConfigs := p.ScrapeConfigs ++ [osc] }
        some (fabricPlatform.PeerOrgs.foldl
          (fun p org =>
            let sc : ScrapeConfig :=
              { JobName := "Peers in " ++ org.Name
                Scheme := "http"
                StaticConfigs :=
                  [{ Targets := (fabricPlatform.PeersByOrg "" org.Name false).foldl
                       (fun targets peer => targets ++ [peer.OperationAddress]) [] }] }
            { p with ScrapeConfigs := p.ScrapeConfigs ++ [sc] })
          p)
      | _ => none)
    p

/-- The closure `replace` of `fscScrapes`: every occurrence of the crypto directory
replaced by the mount point of the crypto material inside the Prometheus container. -/
def replace (n : Extension) (s : String) : Option String :=
  (fscCryptoDir n).map (fun dir => strings.Replace s dir "/etc/prometheus/fsc/crypto")

/-- `Extension.fscScrapes`: one job per node of the first platform of type
`fsc.TopologyName`; panics when there is no such platform. -/
def fscScrapes (n : Extension) (p : Prometheus) : Option Prometheus :=
  match n.platform.GetContext.PlatformsByType api.TopologyName.fsc with
  | api.Platform.fscPlatform platform :: _ =>
    platform.Peers.foldlM
      (fun p peer => do
        let caFile ← replace n (platform.NodeLocalTLSDir peer ++ "/ca.crt")
        let certFile ← replace n (platform.NodeLocalTLSDir peer ++ "/server.crt")
        let keyFile ← replace n (platform.NodeLocalTLSDir peer ++ "/server.key")
        let sc : ScrapeConfig :=
          { JobName := "FSC Node " ++ peer.Name
            Scheme := "https"
            StaticConfigs := [{ Targets := [platform.OperationAddress peer] }]
            TLSConfig := some
              { CAFile := caFile
                CertFile := certFile
                KeyFile := keyFile
                ServerName := ""
                InsecureSkipVerify := true } }
        pure { p with ScrapeConfigs := p.ScrapeConfigs ++ [sc] })
      p
  | _ => none

/-- What a call of `GenerateArtifacts` comes to. -/
inductive Artifacts where
  /-- Monitoring is not enabled: the function returns at once. -/
  | disabled
  /-- The function panicked while it assembled the configuration. -/
  | panicked
  /-- The configuration handed to `yaml.Marshal` and stored as `prometheus.yml`. -/
  | generated (prometheusConfig : Prometheus)
  deriving DecidableEq, Repr

/-- `Extension.GenerateArtifacts`, up to the configuration it assembles (the rest of
the function serialises it and writes it, with the static Grafana files, to disk). -/
def GenerateArtifacts (n : Extension) : Artifacts :=
  if !n.platform.PrometheusGrafana then Artifacts.disabled
  else
    let prometheusConfig : Prometheus :=
      { Global := { ScrapeInterval := "15s", EvaluationInterval := "15s" }
        ScrapeConfigs := [] }
    let prometheusConfig := prometheusScrape n prometheusConfig
    match fabricScrapes n prometheusConfig with
    | none => Artifacts.panicked
    | some prometheusConfig =>
      match fscScrapes n prometheusConfig with
      | none => Artifacts.panicked
      | some prometheusConfig => Artifacts.generated prometheusConfig

/-- The jobs of the generated configuration (none when nothing was generated). -/
def Artifacts.jobs : Artifacts → List ScrapeConfig
  | Artifacts.generated prometheusConfig => prometheusConfig.ScrapeConfigs
  | _ => []

/-! ## The containers -/

/-- A bind mount (`mount.Mount`); `Kind` is its field `Type`. -/
structure Mount where
  Kind : String
  Source : String
  Target : String
  deriving DecidableEq, Repr

/-- One entry of `nat.PortMap`. -/
structure PortBinding where
  HostIP : String
  HostPort : String
  deriving DecidableEq, Repr

/-- The fields of `container.Config` the extension sets. -/
structure ContainerConfig where
  Hostname : String
  Image : String
  Tty : Bool
  Env : List String
  ExposedPorts : List String
  deriving DecidableEq, Repr

/-- The fields of `container.HostConfig` the extension sets. -/
structure HostConfig where
  ExtraHosts : List String
  RestartPolicy : String
  Links : List String
  Mounts : List Mount
  PortBindings : List (String × List PortBinding)
  deriving DecidableEq, Repr

/-- The `network.NetworkingConfig` of a container: network name and network ID of
each endpoint. -/
structure NetworkingConfig where
  EndpointsConfig : List (String × String)
  deriving DecidableEq, Repr

/-- The calls `PostRun` issues, in the order of the program. -/
inductive Action where
  /-- The call `client.NewClientWithOpts`. -/
  | NewClientWithOpts
  /-- The call `DockerClient().NetworkInfo(id)`. -/
  | NetworkInfo (id : String)
  /-- The call `nnetwork.LocalIP(DockerClient(), networkID)`. -/
  | LocalIP (networkID : String)
  /-- The call `cli.ContainerCreate`. -/
  | ContainerCreate (config : ContainerConfig) (hostConfig : HostConfig)
      (networkingConfig : NetworkingConfig) (containerName : String)
  /-- The call `cli.NetworkConnect(ctx, networkID, containerID, settings)`, with the
  network ID of its endpoint settings. -/
  | NetworkConnect (networkID containerID endpointNetworkID : String)
  /-- The call `cli.ContainerStart`. -/
  | ContainerStart (containerID : String)
  /-- The `go` statement that starts the forwarding of a container's logs. -/
  | GoContainerLogs (containerID : String)
  /-- The call `time.Sleep(d)`, with `d` in nanoseconds. -/
  | Sleep (d : Nat)
  deriving DecidableEq, Repr

/-- What lies outside the extension: the path library and the container runtime.
The answer to a call may depend on all the calls issued before it. -/
structure Env where
  /-- The function `filepath.Join`. -/
  Join : List String → String
  /-- Whether the call, issued after the given calls, returns without error. -/
  succeeds : List Action → Action → Bool
  /-- The `ID` of the network that the last call, `NetworkInfo`, returned. -/
  networkID : List Action → String
  /-- The address that the last call, `LocalIP`, returned. -/
  localIP : List Action → String
  /-- The `ID` of the container that the last call, `ContainerCreate`, returned. -/
  containerID : List Action → String

/-- A run of `PostRun` so far: the calls issued, and whether the run was aborted (a
failed `Expect`, or a panic). -/
structure Run where
  trace : List Action
  failed : Bool
  deriving DecidableEq, Repr

/-- A call followed by `Expect(err).ToNot(HaveOccurred())`: nothing happens once the
run is aborted; otherwise the call is issued, and the run is aborted if it fails. -/
def Run.call (env : Env) (r : Run) (a : Action) : Run :=
  if r.failed then r
  else { trace := r.trace ++ [a], failed := !env.succeeds r.trace a }

/-- A statement that cannot fail (`time.Sleep`, a `go` statement). -/
def Run.perform (r : Run) (a : Action) : Run :=
  if r.failed then r else { r with trace := r.trace ++ [a] }

/-- A panic while the arguments of a call are evaluated. -/
def Run.panic (r : Run) : Run := { r with failed := true }

/-- `Extension.configFileDir`. -/
def configFileDir (env : Env) (n : Extension) : String :=
  env.Join [n.platform.ConfigDir]

/-- `Extension.prometheusConfigFilePath`. -/
def prometheusConfigFilePath (env : Env) (n : Extension) : String :=
  env.Join [configFileDir env n, "prometheus", "prometheus.yml"]

/-- `Extension.grafanaProvisioningDirPath`. -/
def grafanaProvisioningDirPath (env : Env) (n : Extension) : String :=
  env.Join [configFileDir env n, "grafana", "provisioning"]

/-- `Extension.grafanaDashboardDirPath`. -/
def grafanaDashboardDirPath (env : Env) (n : Extension) : String :=
  env.Join [configFileDir env n, "grafana", "dashboards"]

/-- The `Mounts` of the Prometheus container in `dockerPrometheus`: the
configuration file and the crypto directory of the FSC platform. -/
def prometheusMounts (env : Env) (n : Extension) : Option (List Mount) :=
  (fscCryptoDir n).map (fun cryptoDir =>
    [ { Kind := "bind"
        Source := prometheusConfigFilePath env n
        Target := "/etc/prometheus/prometheus.yml" },
      { Kind := "bind"
        Source := cryptoDir
        Target := "/etc/prometheus/fsc/crypto" } ])

/-- `Extension.dockerPrometheus`: create the Prometheus container, connect it to the
network, start it, and start forwarding its logs. -/
def dockerPrometheus (env : Env) (n : Extension) (r : Run) : Run :=
  let r := r.call env Action.NewClientWithOpts
  let r := r.call env (Action.NetworkInfo n.platform.NetworkID)
  let netID := env.networkID r.trace
  let containerName := n.platform.NetworkID ++ "-prometheus"
  let port := strconv.Itoa n.platform.PrometheusPort
  let r := r.call env (Action.LocalIP n.platform.NetworkID)
  let extraHost := "fabric:" ++ env.localIP r.trace
  match prometheusMounts env n with
  | none => r.panic
  | some mounts =>
    let r := r.call env (Action.ContainerCreate
      { Hostname := "prometheus"
        Image := "prom/prometheus:latest"
        Tty := true
        Env := []
        ExposedPorts := [port ++ "/tcp"] }
      { ExtraHosts := [extraHost]
        RestartPolicy := "always"
        Links := []
        Mounts := mounts
        PortBindings := [(port ++ "/tcp", [{ HostIP := "0.0.0.0", HostPort := port }])] }
      { EndpointsConfig := [(n.platform.NetworkID, netID)] }
      containerName)
    let respID := env.containerID r.trace
    let r := r.call env
      (Action.NetworkConnect n.platform.NetworkID respID n.platform.NetworkID)
    let r := r.call env (Action.ContainerStart respID)
    r.perform (Action.GoContainerLogs respID)

/-- `Extension.dockerGrafana`: create the Grafana container, connect it to the
network, start it, wait three seconds, and start forwarding its logs. -/
def dockerGrafana (env : Env) (n : Extension) (r : Run) : Run :=
  let r := r.call env Action.NewClientWithOpts
  let r := r.call env (Action.NetworkInfo n.platform.NetworkID)
  let netID := env.networkID r.trace
  let containerName := n.platform.NetworkID ++ "-grafana"
  let port := strconv.Itoa n.platform.GrafanaPort
  let r := r.call env (Action.ContainerCreate
    { Hostname := "grafana"
      Image := "grafana/grafana:latest"
      Tty := false
      Env := ["GF_AUTH_PROXY_ENABLED=true",
              "GF_PATHS_PROVISIONING=/var/lib/grafana/provisioning/"]
      ExposedPorts := [port ++ "/tcp"] }
    { ExtraHosts := []
      RestartPolicy := ""
      Links := [n.platform.NetworkID ++ "-prometheus"]
      Mounts :=
        [ { Kind := "bind"
            Source := grafanaProvisioningDirPath env n
            Target := "/var/lib/grafana/provisioning/" },
          { Kind := "bind"
            Source := grafanaDashboardDirPath env n
            Target := "/var/lib/grafana/dashboards/" } ]
      PortBindings := [(port ++ "/tcp", [{ HostIP := "0.0.0.0", HostPort := port }])] }
    { EndpointsConfig := [(n.platform.NetworkID, netID)] }
    containerName)
  let respID := env.containerID r.trace
  let r := r.call env
    (Action.NetworkConnect n.platform.NetworkID respID n.platform.NetworkID)
  let r := r.call env (Action.ContainerStart respID)
  let r := r.perform (Action.Sleep (3 * time.Second))
  r.perform (Action.GoContainerLogs respID)

/-- `Extension.PostRun`: nothing when monitoring is not enabled; otherwise Prometheus,
a wait of thirty seconds, then Grafana. -/
def PostRun (env : Env) (n : Extension) (_load : Bool) : Run :=
  if !n.platform.PrometheusGrafana then { trace := [], failed := false }
  else
    let r := dockerPrometheus env n { trace := [], failed := false }
    let r := r.perform (Action.Sleep (30 * time.Second))
    dockerGrafana env n r

/-- The calls that create, connect or start a container, and the waits. -/
def Action.isLifecycle : Action → Bool
  | Action.ContainerCreate _ _ _ _ => true
  | Action.NetworkConnect _ _ _ => true
  | Action.ContainerStart _ => true
  | Action.Sleep _ => true
  | _ => false

/-! ## The loops of the scrape functions in closed form -/

/-- The jobs `fabricScrapes` appends for one Fabric platform. -/
def fabricJobs (fabricPlatform : fabric.Platform) : List ScrapeConfig :=
  { JobName := "orderers"
    Scheme := "http"
    StaticConfigs := [{ Targets := fabricPlatform.Orderers.map (fun o => o.OperationAddress) }]
    TLSConfig := none } ::
  fabricPlatform.PeerOrgs.map (fun org =>
    { JobName := "Peers in " ++ org.Name
      Scheme := "http"
      StaticConfigs :=
        [{ Targets := (fabricPlatform.PeersByOrg "" org.Name false).map
             (fun peer => peer.OperationAddress) }]
      TLSConfig := none })

/-- The job `fscScrapes` appends for one node of the FSC platform. -/
def fscJob (platform : fsc.Platform) (peer : fsc.Peer) : ScrapeConfig :=
  { JobName := "FSC Node " ++ peer.Name
    Scheme := "https"
    StaticConfigs := [{ Targets := [platform.OperationAddress peer] }]
    TLSConfig := some
      { CAFile := strings.Replace (platform.NodeLocalTLSDir peer ++ "/ca.crt")
          platform.CryptoPath "/etc/prometheus/fsc/crypto"
        CertFile := strings.Replace (platform.NodeLocalTLSDir peer ++ "/server.crt")
          platform.CryptoPath "/etc/prometheus/fsc/crypto"
        KeyFile := strings.Replace (platform.NodeLocalTLSDir peer ++ "/server.key")
          platform.CryptoPath "/etc/prometheus/fsc/crypto"
        ServerName := ""
        InsecureSkipVerify := true } }

/-! ## Sample networks -/

/-- An extension with monitoring enabled over the given Fabric and FSC platforms. -/
def sampleExtension (fabricPlatforms : List fabric.Platform)
    (fscPlatforms : List fsc.Platform) : Extension :=
  { platform :=
      { HyperledgerExplorer := false
        GetContext :=
          { PlatformsByType := fun typ =>
              match typ with
              | api.TopologyName.fabric => fabricPlatforms.map api.Platform.fabricPlatform
              | api.TopologyName.fsc => fscPlatforms.map api.Platform.fscPlatform }
        ConfigDir := "/tmp/iou"
        NetworkID := "iou"
        PrometheusGrafana := true
        PrometheusPort := 9090
        GrafanaPort := 3000 } }

/-- A Fabric platform with one orderer and the organizations Org1 and Org2, of two
peers each. -/
def twoOrgs : fabric.Platform :=
  { Orderers := [{ OperationAddress := "127.0.0.1:20000" }]
    PeerOrgs := [{ Name := "Org1" }, { Name := "Org2" }]
    PeersByOrg := fun _ orgName _ =>
      if orgName = "Org1" then
        [{ OperationAddress := "127.0.0.1:20011" }, { OperationAddress := "127.0.0.1:20012" }]
      else if orgName = "Org2" then
        [{ OperationAddress := "127.0.0.1:20021" }, { OperationAddress := "127.0.0.1:20022" }]
      else [] }

/-- An FSC platform with the given crypto directory and one node `alice`, whose TLS
directory is the given one. -/
def aliceOnly (cryptoPath tlsDir : String) : fsc.Platform :=
  { Peers := [{ Name := "alice" }]
    OperationAddress := fun _ => "127.0.0.1:20031"
    NodeLocalTLSDir := fun _ => tlsDir
    CryptoPath := cryptoPath }

/-- An FSC platform without nodes. -/
def noNodes : fsc.Platform :=
  { Peers := []
    OperationAddress := fun _ => ""
    NodeLocalTLSDir := fun _ => ""
    CryptoPath := "/tmp/iou/fsc/crypto" }

/-- A runtime in which every call succeeds. -/
def healthyEnv : Env :=
  { Join := fun elems => "/".intercalate elems
    succeeds := fun _ _ => true
    networkID := fun _ => "4f6e"
    localIP := fun _ => "172.18.0.1"
    containerID := fun trace => "container" ++ toString trace.length }

end monitoring


/-! ## Lemmas on `strings.Replace` -/

namespace strings

theorem replaceScan_nil (old new : List Char) (hold : old ≠ []) (fuel : Nat) :
    replaceScan old new fuel [] = [] := by
  cases fuel with
  | zero => rfl
  | succ fuel =>
    have : old.isPrefixOf ([] : List Char) = false := by
      cases old with
      | nil => exact absurd rfl hold
      | cons a l => rfl
    simp [replaceScan, this]

theorem replaceScan_fuel (old new : List Char) (hold : old ≠ []) :
    ∀ (fuel fuel2 : Nat) (s : List Char), s.length ≤ fuel → s.length ≤ fuel2 →
      replaceScan old new fuel s = replaceScan old new fuel2 s := by
  intro fuel
  induction fuel with
  | zero =>
    intro fuel2 s h _
    have hs : s = [] := List.length_eq_zero.mp (Nat.le_zero.mp h)
    subst hs
    rw [replaceScan_nil old new hold, replaceScan_nil old new hold]
  | succ fuel ih =>
    intro fuel2 s h h2
    cases s with
    | nil => rw [replaceScan_nil old new hold, replaceScan_nil old new hold]
    | cons c t =>
      cases fuel2 with
      | zero => simp at h2
      | succ fuel2 =>
        simp only [List.length_cons, Nat.add_le_add_iff_right] at h h2
        simp only [replaceScan]
        split
        · rename_i hp
          have hlen : ((c :: t).drop old.length).length ≤ t.length := by
            cases old with
            | nil => exact absurd rfl hold
            | cons a l => simp
          rw [ih fuel2 _ (le_trans hlen h) (le_trans hlen h2)]
        · rw [ih fuel2 t h h2]

theorem replaceScan_append (old new rest : List Char) (hold : old ≠ []) :
    replaceScan old new (old ++ rest).length (old ++ rest)
      = new ++ replaceScan old new rest.length rest := by
  cases old with
  | nil => exact absurd rfl hold
  | cons a l =>
    have hp : (a :: l).isPrefixOf ((a :: l) ++ rest) = true := by
      rw [List.isPrefixOf_iff_prefix]; exact List.prefix_append _ _
    have hlen : ((a :: l) ++ rest).length = (l ++ rest).length + 1 := by simp
    rw [hlen]
    simp only [replaceScan, if_pos hp, List.drop_left]
    rw [replaceScan_fuel (a :: l) new (by simp) (l ++ rest).length rest.length rest (by simp) le_rfl]

theorem replaceScan_cons (old new : List Char) (c : Char) (t : List Char)
    (h : ¬ old <+: c :: t) :
    replaceScan old new (c :: t).length (c :: t) = c :: replaceScan old new t.length t := by
  have hp : ¬ old.isPrefixOf (c :: t) = true := by
    rw [List.isPrefixOf_iff_prefix]; exact h
  simp only [List.length_cons, replaceScan, if_neg hp]

theorem replaceScan_of_not_infix (old new : List Char) (fuel : Nat) (s : List Char)
    (h : ¬ old <:+: s) : replaceScan old new fuel s = s := by
  induction fuel generalizing s with
  | zero => rfl
  | succ fuel ih =>
    have hp : ¬ old.isPrefixOf s = true := by
      rw [List.isPrefixOf_iff_prefix]; exact fun hp => h hp.isInfix
    cases s with
    | nil => simp only [replaceScan, if_neg hp]
    | cons c t =>
      simp only [replaceScan, if_neg hp]
      rw [ih t (fun ht => h (ht.trans (List.suffix_cons c t).isInfix))]

/-- The text begins with the old string, which does not occur in what follows: the result is
the new string followed by the remainder -/
theorem replaceChars_append_of_not_infix (old new rest : List Char) (h : ¬ old <:+: rest) :
    replaceChars (old ++ rest) old new = new ++ rest := by
  have hold : old ≠ [] := by
    rintro rfl
    exact h List.nil_infix
  unfold replaceChars
  by_cases heq : old = new
  · simp [heq]
  · rw [if_neg heq, if_neg hold, replaceScan_append old new rest hold,
      replaceScan_of_not_infix old new _ rest h]

theorem replaceChars_append_prefix (old new rest : List Char) :
    new <+: replaceChars (old ++ rest) old new := by
  unfold replaceChars
  by_cases heq : old = new
  · rw [if_pos heq, heq]; exact List.prefix_append _ _
  · rw [if_neg heq]
    by_cases hold : old = []
    · rw [if_pos hold]; exact List.prefix_append _ _
    · rw [if_neg hold, replaceScan_append old new rest hold]; exact List.prefix_append _ _

theorem infix_append_cases {α : Type} (l A B : List α) (h : l <:+: A ++ B) :
    l <:+: A ∨ l <:+: B ∨
      ∃ u v, u ≠ [] ∧ v ≠ [] ∧ l = u ++ v ∧ u <:+ A ∧ v <+: B := by
  obtain ⟨a, b, hab⟩ := h
  rcases List.append_eq_append_iff.mp hab with ⟨a1, hA, hb⟩ | ⟨c1, hal, hB⟩
  · exact Or.inl ⟨a, a1, hA.symm⟩
  · rcases List.append_eq_append_iff.mp hal with ⟨a2, hA, hl⟩ | ⟨c2, ha, hc⟩
    · by_cases ha2 : a2 = []
      · subst ha2
        refine Or.inr (Or.inl ⟨[], b, ?_⟩)
        simp only [List.nil_append] at hl ⊢
        rw [hl, hB]
      · by_cases hc1 : c1 = []
        · subst hc1
          refine Or.inl ⟨a, [], ?_⟩
          simp only [List.append_nil] at hl ⊢
          rw [hl, hA]
        · exact Or.inr (Or.inr ⟨a2, c1, ha2, hc1, hl, ⟨a, hA.symm⟩, ⟨b, hB.symm⟩⟩)
    · refine Or.inr (Or.inl ⟨c2, b, ?_⟩)
      rw [hB, hc]

theorem replaceScan_not_infix (old new : List Char)
    (h1 : ¬ old <:+: new) (h2 : ¬ new <:+: old)
    (h3 : ∀ u, u ≠ [] → u <+: old → ¬ u <:+ new)
    (h4 : ∀ v, v ≠ [] → v <:+ old → ¬ v <+: new) :
    ∀ (fuel : Nat) (s q : List Char), s.length ≤ fuel →
      (∀ a b, q ++ s = a ++ old ++ b → q.length ≤ a.length) →
      ¬ old <:+: q ++ replaceScan old new fuel s := by
  have hold : old ≠ [] := by
    rintro rfl
    exact h1 List.nil_infix
  have hq : ∀ (s q : List Char),
      (∀ a b, q ++ s = a ++ old ++ b → q.length ≤ a.length) → ¬ old <:+: q := by
    intro s q hQ ⟨a, b, hab⟩
    have := hQ a (b ++ s) (by rw [← hab]; simp)
    rw [← hab] at this
    have hpos : 0 < old.length := List.length_pos.mpr hold
    simp only [List.length_append] at this
    omega
  intro fuel
  induction fuel with
  | zero =>
    intro s q hs hQ
    have hs0 : s = [] := List.length_eq_zero.mp (Nat.le_zero.mp hs)
    subst hs0
    simpa [replaceScan] using hq [] q hQ
  | succ fuel ih =>
    intro s q hs hQ
    by_cases hp : old <+: s
    · obtain ⟨rest, rfl⟩ := hp
      have hp2 : old.isPrefixOf (old ++ rest) = true := by
        rw [List.isPrefixOf_iff_prefix]; exact List.prefix_append _ _
      simp only [replaceScan, if_pos hp2, List.drop_left]
      have hrest : rest.length ≤ fuel := by
        have hpos : 0 < old.length := List.length_pos.mpr hold
        simp only [List.length_append] at hs
        omega
      have hR : ¬ old <:+: replaceScan old new fuel rest := by
        have := ih rest [] hrest (by intro a b _; simp)
        simpa using this
      intro hin
      rcases infix_append_cases old q _ hin with hA | hB | ⟨u, v, hu, hv, huv, hsu, hpv⟩
      · exact hq _ q hQ hA
      · rcases infix_append_cases old new _ hB with hA2 | hB2 | ⟨u, v, hu, hv, huv, hsu, hpv⟩
        · exact h1 hA2
        · exact hR hB2
        · exact h3 u hu ⟨v, huv.symm⟩ hsu
      · rcases List.prefix_or_prefix_of_prefix hpv (List.prefix_append new _) with hvn | hnv
        · exact h4 v hv ⟨u, huv.symm⟩ hvn
        · obtain ⟨w, hw⟩ := hnv
          exact h2 ⟨u, w, by rw [huv, ← hw]; simp⟩
    · have hp2 : ¬ old.isPrefixOf s = true := by
        rw [List.isPrefixOf_iff_prefix]; exact hp
      cases s with
      | nil =>
        simp only [replaceScan, if_neg hp2, List.append_nil]
        exact hq [] q hQ
      | cons c t =>
        simp only [replaceScan, if_neg hp2]
        have hQ2 : ∀ a b, (q ++ [c]) ++ t = a ++ old ++ b → (q ++ [c]).length ≤ a.length := by
          intro a b hab
          have hab2 : q ++ c :: t = a ++ old ++ b := by simpa using hab
          have hle := hQ a b hab2
          rcases Nat.lt_or_eq_of_le hle with hlt | heq
          · simp only [List.length_append, List.length_singleton]; omega
          · exfalso
            rw [List.append_assoc] at hab2
            have := List.append_inj hab2 heq
            exact hp ⟨b, this.2.symm⟩
        have := ih t (q ++ [c]) (by simpa using hs) hQ2
        simpa using this

theorem replaceChars_not_infix (s old new : List Char)
    (h1 : ¬ old <:+: new) (h2 : ¬ new <:+: old)
    (h3 : ∀ u, u ≠ [] → u <+: old → ¬ u <:+ new)
    (h4 : ∀ v, v ≠ [] → v <:+ old → ¬ v <+: new) :
    ¬ old <:+: replaceChars s old new := by
  have hold : old ≠ [] := by
    rintro rfl
    exact h1 List.nil_infix
  have hne : old ≠ new := by
    rintro rfl
    exact h1 List.infix_rfl
  unfold replaceChars
  rw [if_neg hne, if_neg hold]
  have := replaceScan_not_infix old new h1 h2 h3 h4 s.length s [] le_rfl (by intro a b _; simp)
  simpa using this

end strings

namespace strings

/-- The text begins with `old`, which does not occur in the remainder: the result is `new`
followed by the remainder. -/
theorem Replace_append_of_not_contains (old new rest : String) (h : ¬ Contains rest old) :
    Replace (old ++ rest) old new = new ++ rest := by
  apply String.ext
  simp only [Replace, String.data_append]
  exact replaceChars_append_of_not_infix old.data new.data rest.data h

/-- The text begins with `old`: the result begins with `new`. -/
theorem Replace_hasPrefix (old new rest : String) :
    HasPrefix (Replace (old ++ rest) old new) new := by
  simp only [HasPrefix, Replace, String.data_append]
  exact replaceChars_append_prefix old.data new.data rest.data

/-- When `old` and `new` do not overlap, `old` does not occur in the result. -/
theorem Replace_not_contains (s old new : String)
    (h1 : ¬ Contains new old) (h2 : ¬ Contains old new)
    (h3 : ¬ Overlap old new) (h4 : ¬ Overlap new old) :
    ¬ Contains (Replace s old new) old := by
  simp only [Contains, Replace]
  apply replaceChars_not_infix s.data old.data new.data h1 h2
  · intro u hu hpu hsu
    exact h3 ⟨⟨u⟩, fun h => hu (congrArg String.data h), hpu, hsu⟩
  · intro v hv hsv hpv
    exact h4 ⟨⟨v⟩, fun h => hv (congrArg String.data h), hpv, hsv⟩

/-- An overlap is found among the beginnings of the first text. -/
theorem overlap_iff (a b : String) :
    Overlap a b ↔ ∃ k ∈ List.range a.data.length, a.data.take (k + 1) <:+ b.data := by
  constructor
  · rintro ⟨u, hu, hpu, hsu⟩
    have hlen : u.data.length ≤ a.data.length := hpu.length_le
    have hpos : 0 < u.data.length := by
      rcases u with ⟨l⟩
      cases l with
      | nil => exact absurd rfl hu
      | cons c t => simp
    refine ⟨u.data.length - 1, List.mem_range.mpr (by omega), ?_⟩
    have h1 : u.data.length - 1 + 1 = u.data.length := by omega
    rw [h1, ← List.prefix_iff_eq_take.mp hpu]
    exact hsu
  · rintro ⟨k, hk, hs⟩
    have hk2 : k < a.data.length := List.mem_range.mp hk
    refine ⟨⟨a.data.take (k + 1)⟩, ?_, List.take_prefix _ _, hs⟩
    intro h
    have h0 : a.data.take (k + 1) = [] := congrArg String.data h
    have h1 := congrArg List.length h0
    rw [List.length_take, List.length_nil] at h1
    omega

end strings

/-! ## Lemmas on the loops of the scrape functions -/

namespace monitoring

/-- A loop that appends one element per round collects the image of the list. -/
theorem foldl_append_map {α β : Type} (f : α → β) (xs : List α) (init : List β) :
    xs.foldl (fun acc x => acc ++ [f x]) init = init ++ xs.map f := by
  induction xs generalizing init with
  | nil => simp
  | cons x xs ih => simp [ih]

/-- A loop that appends one job per round to the configuration. -/
theorem foldl_jobs {α : Type} (g : α → ScrapeConfig) (xs : List α) (p : Prometheus) :
    xs.foldl (fun p x => { p with ScrapeConfigs := p.ScrapeConfigs ++ [g x] }) p
      = { p with ScrapeConfigs := p.ScrapeConfigs ++ xs.map g } := by
  induction xs generalizing p with
  | nil => simp
  | cons x xs ih => simp [ih]

/-- When every platform of type `fabric.TopologyName` is a `*fabric.Platform`,
`fabricScrapes` appends the jobs of each of them, in the order of the context. -/
theorem fabricScrapes_eq (n : Extension) (fps : List fabric.Platform) (p : Prometheus)
    (h : n.platform.GetContext.PlatformsByType api.TopologyName.fabric
      = fps.map api.Platform.fabricPlatform) :
    fabricScrapes n p
      = some { p with ScrapeConfigs := p.ScrapeConfigs ++ fps.flatMap fabricJobs } := by
  unfold fabricScrapes
  rw [h]
  clear h
  induction fps generalizing p with
  | nil => simp
  | cons fp fps ih =>
    simp only [List.map_cons, List.foldlM_cons, ih]
    simp [fabricJobs, List.flatMap_cons, foldl_append_map, foldl_jobs]

/-- When the first platform of type `fsc.TopologyName` is a `*fsc.Platform`,
`fscScrapes` appends one job per node of it, in the order of its field `Peers`. -/
theorem fscScrapes_eq (n : Extension) (platform : fsc.Platform) (rest : List api.Platform)
    (p : Prometheus)
    (h : n.platform.GetContext.PlatformsByType api.TopologyName.fsc
      = api.Platform.fscPlatform platform :: rest) :
    fscScrapes n p
      = some { p with ScrapeConfigs := p.ScrapeConfigs ++ platform.Peers.map (fscJob platform) } := by
  have hdir : ∀ s, replace n s
      = some (strings.Replace s platform.CryptoPath "/etc/prometheus/fsc/crypto") := by
    intro s
    simp [replace, fscCryptoDir, h]
  unfold fscScrapes
  rw [h]
  simp only [hdir]
  generalize platform.Peers = peers
  induction peers generalizing p with
  | nil => simp
  | cons peer peers ih =>
    simp only [List.foldlM_cons, ih]
    simp [fscJob]

/-- The configuration `GenerateArtifacts` assembles when monitoring is enabled, every
platform of type `fabric.TopologyName` is a `*fabric.Platform` and the first platform
of type `fsc.TopologyName` is a `*fsc.Platform`. -/
theorem GenerateArtifacts_eq (n : Extension) (fps : List fabric.Platform)
    (platform : fsc.Platform) (rest : List api.Platform)
    (hon : n.platform.PrometheusGrafana = true)
    (hfabric : n.platform.GetContext.PlatformsByType api.TopologyName.fabric
      = fps.map api.Platform.fabricPlatform)
    (hfsc : n.platform.GetContext.PlatformsByType api.TopologyName.fsc
      = api.Platform.fscPlatform platform :: rest) :
    GenerateArtifacts n = Artifacts.generated
      { Global := { ScrapeInterval := "15s", EvaluationInterval := "15s" }
        ScrapeConfigs :=
          { JobName := "prometheus"
            Scheme := "http"
            StaticConfigs :=
              [{ Targets := ["prometheus:" ++ strconv.Itoa n.platform.PrometheusPort] }]
            TLSConfig := none } ::
          (fps.flatMap fabricJobs ++ platform.Peers.map (fscJob platform)) } := by
  unfold GenerateArtifacts
  simp only [hon, Bool.not_true, Bool.false_eq_true, if_false]
  rw [fabricScrapes_eq n fps _ hfabric]
  simp only
  rw [fscScrapes_eq n platform rest _ hfsc]
  simp [prometheusScrape]

end monitoring

/-! ## The job list of `GenerateArtifacts` -/

namespace monitoring

/-- C1, as amended: with monitoring enabled, one Fabric platform of N peer organizations
and one FSC platform of M nodes, `GenerateArtifacts` builds exactly 2 + N + M jobs: the
job by which Prometheus scrapes itself, the job of the orderers, one job per
organization and one job per node. -/
theorem GenerateArtifacts_job_count (n : Extension) (fabricPlatform : fabric.Platform)
    (platform : fsc.Platform)
    (hon : n.platform.PrometheusGrafana = true)
    (hfabric : n.platform.GetContext.PlatformsByType api.TopologyName.fabric
      = [api.Platform.fabricPlatform fabricPlatform])
    (hfsc : n.platform.GetContext.PlatformsByType api.TopologyName.fsc
      = [api.Platform.fscPlatform platform]) :
    ∃ cfg self orderers orgJobs nodeJobs,
      GenerateArtifacts n = Artifacts.generated cfg ∧
      cfg.ScrapeConfigs = self :: orderers :: (orgJobs ++ nodeJobs) ∧
      self.JobName = "prometheus" ∧
      orderers.JobName = "orderers" ∧
      orgJobs.length = fabricPlatform.PeerOrgs.length ∧
      nodeJobs.length = platform.Peers.length ∧
      cfg.ScrapeConfigs.length
        = 2 + fabricPlatform.PeerOrgs.length + platform.Peers.length := by
  refine ⟨_,
    { JobName := "prometheus"
      Scheme := "http"
      StaticConfigs :=
        [{ Targets := ["prometheus:" ++ strconv.Itoa n.platform.PrometheusPort] }]
      TLSConfig := none },
    { JobName := "orderers"
      Scheme := "http"
      StaticConfigs :=
        [{ Targets := fabricPlatform.Orderers.map (fun o => o.OperationAddress) }]
      TLSConfig := none },
    (fabricJobs fabricPlatform).tail, platform.Peers.map (fscJob platform),
    GenerateArtifacts_eq n [fabricPlatform] platform [] hon (by simpa using hfabric) hfsc,
    ?_, ?_, ?_, ?_, ?_, ?_⟩
  · simp only [List.flatMap_cons, List.flatMap_nil, List.append_nil, fabricJobs,
      List.cons_append, List.tail_cons]
  · rfl
  · rfl
  · simp [fabricJobs]
  · simp
  · simp [fabricJobs]
    omega

/-- C1, witness: the network of Org1 and Org2 without FSC nodes. -/
theorem GenerateArtifacts_job_count_witness :
    ∃ cfg self orderers orgJobs nodeJobs,
      GenerateArtifacts (sampleExtension [twoOrgs] [noNodes]) = Artifacts.generated cfg ∧
      cfg.ScrapeConfigs = self :: orderers :: (orgJobs ++ nodeJobs) ∧
      self.JobName = "prometheus" ∧
      orderers.JobName = "orderers" ∧
      orgJobs.length = twoOrgs.PeerOrgs.length ∧
      nodeJobs.length = noNodes.Peers.length ∧
      cfg.ScrapeConfigs.length = 2 + twoOrgs.PeerOrgs.length + noNodes.Peers.length :=
  GenerateArtifacts_job_count (sampleExtension [twoOrgs] [noNodes]) twoOrgs noNodes rfl rfl rfl

/-- C1, counterexample: for two organizations and no FSC node, four jobs are built,
not 1 + 2 + 0. -/
theorem GenerateArtifacts_job_count_counterexample :
    (GenerateArtifacts (sampleExtension [twoOrgs] [noNodes])).jobs.length = 4 ∧
    1 + twoOrgs.PeerOrgs.length + noNodes.Peers.length = 3 := by
  decide

/-- C2, as amended: with monitoring enabled, one Fabric platform and one FSC platform,
the job list is, in this order: the job `prometheus`, the job `orderers`, the jobs of
the organizations in the order of `PeerOrgs`, the jobs of the nodes in the order of
`Peers`. -/
theorem GenerateArtifacts_job_order (n : Extension) (fabricPlatform : fabric.Platform)
    (platform : fsc.Platform)
    (hon : n.platform.PrometheusGrafana = true)
    (hfabric : n.platform.GetContext.PlatformsByType api.TopologyName.fabric
      = [api.Platform.fabricPlatform fabricPlatform])
    (hfsc : n.platform.GetContext.PlatformsByType api.TopologyName.fsc
      = [api.Platform.fscPlatform platform]) :
    GenerateArtifacts n = Artifacts.generated
      { Global := { ScrapeInterval := "15s", EvaluationInterval := "15s" }
        ScrapeConfigs :=
          [{ JobName := "prometheus"
             Scheme := "http"
             StaticConfigs :=
               [{ Targets := ["prometheus:" ++ strconv.Itoa n.platform.PrometheusPort] }]
             TLSConfig := none },
           { JobName := "orderers"
             Scheme := "http"
             StaticConfigs :=
               [{ Targets := fabricPlatform.Orderers.map (fun o => o.OperationAddress) }]
             TLSConfig := none }]
          ++ fabricPlatform.PeerOrgs.map (fun org =>
              { JobName := "Peers in " ++ org.Name
                Scheme := "http"
                StaticConfigs :=
                  [{ Targets := (fabricPlatform.PeersByOrg "" org.Name false).map
                       (fun peer => peer.OperationAddress) }]
                TLSConfig := none })
          ++ platform.Peers.map (fun peer =>
              { JobName := "FSC Node " ++ peer.Name
                Scheme := "https"
                StaticConfigs := [{ Targets := [platform.OperationAddress peer] }]
                TLSConfig := some
                  { CAFile := strings.Replace (platform.NodeLocalTLSDir peer ++ "/ca.crt")
                      platform.CryptoPath "/etc/prometheus/fsc/crypto"
                    CertFile :=
                      strings.Replace (platform.NodeLocalTLSDir peer ++ "/server.crt")
                        platform.CryptoPath "/etc/prometheus/fsc/crypto"
                    KeyFile :=
                      strings.Replace (platform.NodeLocalTLSDir peer ++ "/server.key")
                        platform.CryptoPath "/etc/prometheus/fsc/crypto"
                    ServerName := ""
                    InsecureSkipVerify := true } }) } := by
  rw [GenerateArtifacts_eq n [fabricPlatform] platform [] hon (by simpa using hfabric) hfsc]
  simp only [List.flatMap_cons, List.flatMap_nil, List.append_nil, fabricJobs,
    List.cons_append, List.nil_append, List.append_assoc]
  rfl

/-- C2, witness: Org1 and Org2 with two peers each, one orderer and no FSC node give
the jobs `prometheus`, `orderers`, `Peers in Org1`, `Peers in Org2`, in this order,
with one, one, two and two targets, all with scheme `http` and without a TLS block. -/
theorem GenerateArtifacts_job_order_witness :
    GenerateArtifacts (sampleExtension [twoOrgs] [noNodes]) = Artifacts.generated
      { Global := { ScrapeInterval := "15s", EvaluationInterval := "15s" }
        ScrapeConfigs :=
          [{ JobName := "prometheus", Scheme := "http",
             StaticConfigs := [{ Targets := ["prometheus:9090"] }], TLSConfig := none },
           { JobName := "orderers", Scheme := "http",
             StaticConfigs := [{ Targets := ["127.0.0.1:20000"] }], TLSConfig := none },
           { JobName := "Peers in Org1", Scheme := "http",
             StaticConfigs := [{ Targets := ["127.0.0.1:20011", "127.0.0.1:20012"] }],
             TLSConfig := none },
           { JobName := "Peers in Org2", Scheme := "http",
             StaticConfigs := [{ Targets := ["127.0.0.1:20021", "127.0.0.1:20022"] }],
             TLSConfig := none }] } := by
  rw [GenerateArtifacts_job_order (sampleExtension [twoOrgs] [noNodes]) twoOrgs noNodes
    rfl rfl rfl]
  decide

/-- C2, counterexample: in the network of Org1 and Org2 with two peers each, one
orderer and no FSC node, four jobs are built and the first is `prometheus`; the
list is not `orderers`, `Peers in Org1`, `Peers in Org2`. -/
theorem GenerateArtifacts_job_order_counterexample :
    (GenerateArtifacts (sampleExtension [twoOrgs] [noNodes])).jobs.map
        (fun job => job.JobName)
      = ["prometheus", "orderers", "Peers in Org1", "Peers in Org2"] ∧
    (GenerateArtifacts (sampleExtension [twoOrgs] [noNodes])).jobs.map
        (fun job => job.JobName)
      ≠ ["orderers", "Peers in Org1", "Peers in Org2"] := by
  decide

end monitoring

/-! ## Job names -/

namespace monitoring

theorem peers_in_ne_orderers (x : String) : "Peers in " ++ x ≠ "orderers" := by
  intro h
  have := congrArg String.data h
  simp [String.data_append] at this

theorem fsc_node_ne_orderers (x : String) : "FSC Node " ++ x ≠ "orderers" := by
  intro h
  have := congrArg String.data h
  simp [String.data_append] at this

theorem peers_in_ne_prometheus (x : String) : "Peers in " ++ x ≠ "prometheus" := by
  intro h
  have := congrArg String.data h
  simp [String.data_append] at this

theorem fsc_node_ne_prometheus (x : String) : "FSC Node " ++ x ≠ "prometheus" := by
  intro h
  have := congrArg String.data h
  simp [String.data_append] at this

theorem peers_in_ne_fsc_node (x y : String) : "Peers in " ++ x ≠ "FSC Node " ++ y := by
  intro h
  have := congrArg String.data h
  simp [String.data_append] at this

theorem append_left_injective (pre : String) :
    Function.Injective (fun x : String => pre ++ x) := by
  intro x y h
  have := congrArg String.data h
  simp only [String.data_append, List.append_cancel_left_eq] at this
  exact String.ext this

/-- Among the jobs of one Fabric platform exactly one is named `orderers`. -/
theorem count_orderers_fabricJobs (fabricPlatform : fabric.Platform) :
    ((fabricJobs fabricPlatform).map (fun job => job.JobName)).count "orderers" = 1 := by
  have h : ((fabricPlatform.PeerOrgs.map (fun org =>
      ({ JobName := "Peers in " ++ org.Name
         Scheme := "http"
         StaticConfigs :=
           [{ Targets := (fabricPlatform.PeersByOrg "" org.Name false).map
                (fun peer => peer.OperationAddress) }]
         TLSConfig := none } : ScrapeConfig))).map (fun job => job.JobName)).count "orderers"
      = 0 := by
    rw [List.count_eq_zero]
    simp only [List.map_map, List.mem_map, Function.comp_apply, not_exists, not_and]
    intro org _ h
    exact peers_in_ne_orderers _ h
  simp only [fabricJobs, List.map_cons, List.count_cons_self, h]

/-- No job of an FSC node is named `orderers`. -/
theorem count_orderers_fscJobs (platform : fsc.Platform) (peers : List fsc.Peer) :
    ((peers.map (fscJob platform)).map (fun job => job.JobName)).count "orderers" = 0 := by
  rw [List.count_eq_zero]
  simp only [List.map_map, List.mem_map, Function.comp_apply, not_exists, not_and, fscJob]
  intro peer _ h
  exact fsc_node_ne_orderers _ h

/-- Each Fabric platform contributes one job named `orderers`. -/
theorem count_orderers_flatMap (fps : List fabric.Platform) :
    ((fps.flatMap fabricJobs).map (fun job => job.JobName)).count "orderers"
      = fps.length := by
  induction fps with
  | nil => simp
  | cons fp fps ih =>
    simp only [List.flatMap_cons, List.map_append, List.count_append, ih,
      count_orderers_fabricJobs, List.length_cons]
    omega

/-- The whole job list holds as many jobs named `orderers` as there are Fabric
platforms. -/
theorem count_orderers_jobs (port : Int) (fps : List fabric.Platform)
    (platform : fsc.Platform) :
    ((({ JobName := "prometheus"
         Scheme := "http"
         StaticConfigs := [{ Targets := ["prometheus:" ++ strconv.Itoa port] }]
         TLSConfig := none } : ScrapeConfig) ::
      (fps.flatMap fabricJobs ++ platform.Peers.map (fscJob platform))).map
        (fun job => job.JobName)).count "orderers" = fps.length := by
  have hne : "orderers" ≠ "prometheus" := by decide
  rw [List.map_cons, List.count_cons_of_ne hne, List.map_append, List.count_append,
    count_orderers_flatMap, count_orderers_fscJobs]
  rfl

/-- C10: with monitoring enabled, every platform of type `fabric.TopologyName` a
`*fabric.Platform` and a `*fsc.Platform` first among the platforms of type
`fsc.TopologyName`, the job list of `GenerateArtifacts` is: the job `prometheus`
(scheme `http`, no TLS block, the single target `prometheus:` followed by the decimal
port); then for each Fabric platform, in the order of the context, its job `orderers`
over the operation addresses of its orderers followed by the jobs of its
organizations; then the jobs of the nodes of the first FSC platform only.  The first
job is the job `prometheus`, and k Fabric platforms give k jobs named `orderers`. -/
theorem GenerateArtifacts_jobs (n : Extension) (fps : List fabric.Platform)
    (platform : fsc.Platform) (rest : List api.Platform)
    (hon : n.platform.PrometheusGrafana = true)
    (hfabric : n.platform.GetContext.PlatformsByType api.TopologyName.fabric
      = fps.map api.Platform.fabricPlatform)
    (hfsc : n.platform.GetContext.PlatformsByType api.TopologyName.fsc
      = api.Platform.fscPlatform platform :: rest) :
    ∃ cfg,
      GenerateArtifacts n = Artifacts.generated cfg ∧
      cfg.ScrapeConfigs =
        [{ JobName := "prometheus"
           Scheme := "http"
           StaticConfigs :=
             [{ Targets := ["prometheus:" ++ strconv.Itoa n.platform.PrometheusPort] }]
           TLSConfig := none }]
        ++ fps.flatMap (fun fabricPlatform =>
            [{ JobName := "orderers"
               Scheme := "http"
               StaticConfigs :=
                 [{ Targets := fabricPlatform.Orderers.map (fun o => o.OperationAddress) }]
               TLSConfig := none }]
            ++ fabricPlatform.PeerOrgs.map (fun org =>
                { JobName := "Peers in " ++ org.Name
                  Scheme := "http"
                  StaticConfigs :=
                    [{ Targets := (fabricPlatform.PeersByOrg "" org.Name false).map
                         (fun peer => peer.OperationAddress) }]
                  TLSConfig := none }))
        ++ platform.Peers.map (fun peer =>
            { JobName := "FSC Node " ++ peer.Name
              Scheme := "https"
              StaticConfigs := [{ Targets := [platform.OperationAddress peer] }]
              TLSConfig := some
                { CAFile := strings.Replace (platform.NodeLocalTLSDir peer ++ "/ca.crt")
                    platform.CryptoPath "/etc/prometheus/fsc/crypto"
                  CertFile :=
                    strings.Replace (platform.NodeLocalTLSDir peer ++ "/server.crt")
                      platform.CryptoPath "/etc/prometheus/fsc/crypto"
                  KeyFile :=
                    strings.Replace (platform.NodeLocalTLSDir peer ++ "/server.key")
                      platform.CryptoPath "/etc/prometheus/fsc/crypto"
                  ServerName := ""
                  InsecureSkipVerify := true } }) ∧
      cfg.ScrapeConfigs.head? = some
        { JobName := "prometheus"
          Scheme := "http"
          StaticConfigs :=
            [{ Targets := ["prometheus:" ++ strconv.Itoa n.platform.PrometheusPort] }]
          TLSConfig := none } ∧
      (cfg.ScrapeConfigs.map (fun job => job.JobName)).count "orderers" = fps.length := by
  refine ⟨_, GenerateArtifacts_eq n fps platform rest hon hfabric hfsc, ?_, ?_, ?_⟩
  · simp only [List.cons_append, List.nil_append, List.append_assoc]
    rfl
  · rfl
  · exact count_orderers_jobs _ fps platform

/-- C10, witness: two Fabric platforms and two FSC platforms. -/
theorem GenerateArtifacts_jobs_witness :
    ∃ cfg,
      GenerateArtifacts (sampleExtension [twoOrgs, twoOrgs]
          [aliceOnly "/tmp/iou/fsc/crypto" "/tmp/iou/fsc/crypto/alice/tls", noNodes])
        = Artifacts.generated cfg ∧
      cfg.ScrapeConfigs.map (fun job => job.JobName)
        = ["prometheus", "orderers", "Peers in Org1", "Peers in Org2", "orderers",
           "Peers in Org1", "Peers in Org2", "FSC Node alice"] ∧
      (cfg.ScrapeConfigs.map (fun job => job.JobName)).count "orderers" = 2 := by
  obtain ⟨cfg, hgen, hjobs, -, hcount⟩ :=
    GenerateArtifacts_jobs
      (sampleExtension [twoOrgs, twoOrgs]
        [aliceOnly "/tmp/iou/fsc/crypto" "/tmp/iou/fsc/crypto/alice/tls", noNodes])
      [twoOrgs, twoOrgs] (aliceOnly "/tmp/iou/fsc/crypto" "/tmp/iou/fsc/crypto/alice/tls")
      [api.Platform.fscPlatform noNodes] rfl rfl rfl
  refine ⟨cfg, hgen, ?_, hcount⟩
  rw [hjobs]
  decide

end monitoring

/-! ## The jobs of `fscScrapes` and of `fabricScrapes` -/

namespace monitoring

/-- C3: when the first platform of type `fsc.TopologyName` is a `*fsc.Platform`,
`fscScrapes` appends exactly one job per node of it, in the order of the nodes; the
job of node p is named `FSC Node ` followed by p's name, has scheme `https`, one
target group holding the one target `OperationAddress(p)`, and a TLS block with
server name `""` and `insecure_skip_verify` set.  Nothing else is appended: no node,
no job. -/
theorem fscScrapes_one_job_per_node (n : Extension) (platform : fsc.Platform)
    (rest : List api.Platform) (p : Prometheus)
    (h : n.platform.GetContext.PlatformsByType api.TopologyName.fsc
      = api.Platform.fscPlatform platform :: rest) :
    ∃ jobs,
      fscScrapes n p = some { p with ScrapeConfigs := p.ScrapeConfigs ++ jobs } ∧
      jobs.length = platform.Peers.length ∧
      (platform.Peers = [] → jobs = []) ∧
      List.Forall₂
        (fun peer job =>
          job.JobName = "FSC Node " ++ peer.Name ∧
          job.Scheme = "https" ∧
          job.StaticConfigs = [{ Targets := [platform.OperationAddress peer] }] ∧
          ∃ tls, job.TLSConfig = some tls ∧ tls.ServerName = "" ∧
            tls.InsecureSkipVerify = true)
        platform.Peers jobs := by
  refine ⟨platform.Peers.map (fscJob platform), fscScrapes_eq n platform rest p h,
    by simp, fun h0 => by simp [h0], ?_⟩
  rw [List.forall₂_map_right_iff]
  apply List.forall₂_same.mpr
  intro peer _
  exact ⟨rfl, rfl, rfl, _, rfl, rfl, rfl⟩

/-- C3, witness: the one node `alice`, and the job appended for it. -/
theorem fscScrapes_one_job_per_node_witness :
    (∃ jobs,
      fscScrapes
          (sampleExtension []
            [aliceOnly "/tmp/iou/fsc/crypto" "/tmp/iou/fsc/crypto/alice/tls"])
          { Global := { ScrapeInterval := "15s", EvaluationInterval := "15s" }
            ScrapeConfigs := [] }
        = some
          { Global := { ScrapeInterval := "15s", EvaluationInterval := "15s" }
            ScrapeConfigs := [] ++ jobs } ∧
      jobs.length = [({ Name := "alice" } : fsc.Peer)].length ∧
      ([({ Name := "alice" } : fsc.Peer)] = [] → jobs = []) ∧
      List.Forall₂
        (fun peer job =>
          job.JobName = "FSC Node " ++ peer.Name ∧
          job.Scheme = "https" ∧
          job.StaticConfigs = [{ Targets := ["127.0.0.1:20031"] }] ∧
          ∃ tls, job.TLSConfig = some tls ∧ tls.ServerName = "" ∧
            tls.InsecureSkipVerify = true)
        [({ Name := "alice" } : fsc.Peer)] jobs) ∧
    fscScrapes
      (sampleExtension [] [aliceOnly "/tmp/iou/fsc/crypto" "/tmp/iou/fsc/crypto/alice/tls"])
      { Global := { ScrapeInterval := "15s", EvaluationInterval := "15s" }
        ScrapeConfigs := [] }
    = some
      { Global := { ScrapeInterval := "15s", EvaluationInterval := "15s" }
        ScrapeConfigs :=
          [{ JobName := "FSC Node alice"
             Scheme := "https"
             StaticConfigs := [{ Targets := ["127.0.0.1:20031"] }]
             TLSConfig := some
               { CAFile := "/etc/prometheus/fsc/crypto/alice/tls/ca.crt"
                 CertFile := "/etc/prometheus/fsc/crypto/alice/tls/server.crt"
                 KeyFile := "/etc/prometheus/fsc/crypto/alice/tls/server.key"
                 ServerName := ""
                 InsecureSkipVerify := true } }] } :=
  ⟨fscScrapes_one_job_per_node
      (sampleExtension [] [aliceOnly "/tmp/iou/fsc/crypto" "/tmp/iou/fsc/crypto/alice/tls"])
      (aliceOnly "/tmp/iou/fsc/crypto" "/tmp/iou/fsc/crypto/alice/tls") []
      { Global := { ScrapeInterval := "15s", EvaluationInterval := "15s" }
        ScrapeConfigs := [] }
      rfl,
    by decide⟩

/-- C6: when every platform of type `fabric.TopologyName` is a `*fabric.Platform`,
`fabricScrapes` appends, for each of them in order, one job `orderers` followed by
exactly one job per peer organization, in the order of `PeerOrgs`; the job of
organization o is named `Peers in ` followed by o's name, has scheme `http`, no TLS
block, and one target group whose targets are the operation addresses of the peers
`PeersByOrg` returns for o, in that order.  An organization without peers still has
its job, with one empty target group. -/
theorem fabricScrapes_one_job_per_org (n : Extension) (fps : List fabric.Platform)
    (p : Prometheus)
    (h : n.platform.GetContext.PlatformsByType api.TopologyName.fabric
      = fps.map api.Platform.fabricPlatform) :
    ∃ groups : List (ScrapeConfig × List ScrapeConfig),
      fabricScrapes n p = some
        { p with ScrapeConfigs :=
            p.ScrapeConfigs ++ groups.flatMap (fun g => g.1 :: g.2) } ∧
      List.Forall₂
        (fun fabricPlatform g =>
          g.1.JobName = "orderers" ∧
          List.Forall₂
            (fun org job =>
              job.JobName = "Peers in " ++ org.Name ∧
              job.Scheme = "http" ∧
              job.TLSConfig = none ∧
              job.StaticConfigs =
                [{ Targets := (fabricPlatform.PeersByOrg "" org.Name false).map
                     (fun peer => peer.OperationAddress) }] ∧
              (fabricPlatform.PeersByOrg "" org.Name false = [] →
                job.StaticConfigs = [{ Targets := [] }]))
            fabricPlatform.PeerOrgs g.2)
        fps groups := by
  refine ⟨fps.map (fun fp =>
    ({ JobName := "orderers"
       Scheme := "http"
       StaticConfigs := [{ Targets := fp.Orderers.map (fun o => o.OperationAddress) }]
       TLSConfig := none }, (fabricJobs fp).tail)), ?_, ?_⟩
  · rw [fabricScrapes_eq n fps p h, List.flatMap_map]
    rfl
  · rw [List.forall₂_map_right_iff]
    apply List.forall₂_same.mpr
    intro fp _
    refine ⟨rfl, ?_⟩
    simp only [fabricJobs, List.tail_cons]
    rw [List.forall₂_map_right_iff]
    apply List.forall₂_same.mpr
    intro org _
    exact ⟨rfl, rfl, rfl, rfl, fun h0 => by simp [h0]⟩

/-- C6, witness: Org1 and Org2, with two peers each, and the jobs appended. -/
theorem fabricScrapes_one_job_per_org_witness :
    (∃ groups : List (ScrapeConfig × List ScrapeConfig),
      fabricScrapes (sampleExtension [twoOrgs] [noNodes])
          { Global := { ScrapeInterval := "15s", EvaluationInterval := "15s" }
            ScrapeConfigs := [] }
        = some
          { Global := { ScrapeInterval := "15s", EvaluationInterval := "15s" }
            ScrapeConfigs := [] ++ groups.flatMap (fun g => g.1 :: g.2) } ∧
      List.Forall₂
        (fun fabricPlatform g =>
          g.1.JobName = "orderers" ∧
          List.Forall₂
            (fun org job =>
              job.JobName = "Peers in " ++ org.Name ∧
              job.Scheme = "http" ∧
              job.TLSConfig = none ∧
              job.StaticConfigs =
                [{ Targets := (fabricPlatform.PeersByOrg "" org.Name false).map
                     (fun peer => peer.OperationAddress) }] ∧
              (fabricPlatform.PeersByOrg "" org.Name false = [] →
                job.StaticConfigs = [{ Targets := [] }]))
            fabricPlatform.PeerOrgs g.2)
        [twoOrgs] groups) ∧
    fabricScrapes (sampleExtension [twoOrgs] [noNodes])
      { Global := { ScrapeInterval := "15s", EvaluationInterval := "15s" }
        ScrapeConfigs := [] }
    = some
      { Global := { ScrapeInterval := "15s", EvaluationInterval := "15s" }
        ScrapeConfigs :=
          [{ JobName := "orderers", Scheme := "http",
             StaticConfigs := [{ Targets := ["127.0.0.1:20000"] }], TLSConfig := none },
           { JobName := "Peers in Org1", Scheme := "http",
             StaticConfigs := [{ Targets := ["127.0.0.1:20011", "127.0.0.1:20012"] }],
             TLSConfig := none },
           { JobName := "Peers in Org2", Scheme := "http",
             StaticConfigs := [{ Targets := ["127.0.0.1:20021", "127.0.0.1:20022"] }],
             TLSConfig := none }] } :=
  ⟨fabricScrapes_one_job_per_org (sampleExtension [twoOrgs] [noNodes]) [twoOrgs]
      { Global := { ScrapeInterval := "15s", EvaluationInterval := "15s" }
        ScrapeConfigs := [] }
      rfl,
    by decide⟩

end monitoring

/-! ## Distinct job names -/

namespace monitoring

/-- The names of the jobs of one Fabric platform and of the nodes of an FSC platform,
after the name `prometheus`, are distinct when the organization names are and the
node names are. -/
theorem job_names_nodup (orgNames nodeNames : List String)
    (horgs : orgNames.Nodup) (hnodes : nodeNames.Nodup) :
    ("prometheus" :: "orderers" ::
      (orgNames.map (fun x => "Peers in " ++ x)
        ++ nodeNames.map (fun x => "FSC Node " ++ x))).Nodup := by
  have h1 : (orgNames.map (fun x => "Peers in " ++ x)).Nodup :=
    horgs.map (append_left_injective "Peers in ")
  have h2 : (nodeNames.map (fun x => "FSC Node " ++ x)).Nodup :=
    hnodes.map (append_left_injective "FSC Node ")
  have h3 : (orgNames.map (fun x => "Peers in " ++ x)
      ++ nodeNames.map (fun x => "FSC Node " ++ x)).Nodup := by
    rw [List.nodup_append]
    refine ⟨h1, h2, ?_⟩
    intro a ha hb
    obtain ⟨x, -, rfl⟩ := List.mem_map.mp ha
    obtain ⟨y, -, hy⟩ := List.mem_map.mp hb
    exact peers_in_ne_fsc_node x y hy.symm
  rw [List.nodup_cons, List.nodup_cons]
  refine ⟨?_, ?_, h3⟩
  · intro hmem
    rcases List.mem_cons.mp hmem with h | h
    · exact absurd h (by decide)
    · rcases List.mem_append.mp h with h | h
      · obtain ⟨x, -, hx⟩ := List.mem_map.mp h
        exact peers_in_ne_prometheus x hx
      · obtain ⟨x, -, hx⟩ := List.mem_map.mp h
        exact fsc_node_ne_prometheus x hx
  · intro hmem
    rcases List.mem_append.mp hmem with h | h
    · obtain ⟨x, -, hx⟩ := List.mem_map.mp h
      exact peers_in_ne_orderers x hx
    · obtain ⟨x, -, hx⟩ := List.mem_map.mp h
      exact fsc_node_ne_orderers x hx

/-- C7: with monitoring enabled, one Fabric platform and one FSC platform, pairwise
distinct organization names and pairwise distinct node names, the job names of the
configuration `GenerateArtifacts` builds are pairwise distinct. -/
theorem GenerateArtifacts_job_names_nodup (n : Extension)
    (fabricPlatform : fabric.Platform) (platform : fsc.Platform)
    (hon : n.platform.PrometheusGrafana = true)
    (hfabric : n.platform.GetContext.PlatformsByType api.TopologyName.fabric
      = [api.Platform.fabricPlatform fabricPlatform])
    (hfsc : n.platform.GetContext.PlatformsByType api.TopologyName.fsc
      = [api.Platform.fscPlatform platform])
    (horgs : (fabricPlatform.PeerOrgs.map (fun org => org.Name)).Nodup)
    (hnodes : (platform.Peers.map (fun peer => peer.Name)).Nodup) :
    ∃ cfg,
      GenerateArtifacts n = Artifacts.generated cfg ∧
      (cfg.ScrapeConfigs.map (fun job => job.JobName)).Nodup := by
  refine ⟨_,
    GenerateArtifacts_eq n [fabricPlatform] platform [] hon (by simpa using hfabric) hfsc,
    ?_⟩
  have h := job_names_nodup _ _ horgs hnodes
  simpa [fabricJobs, fscJob, Function.comp_def] using h

/-- C7, witness: Org1 and Org2 with the node `alice`. -/
theorem GenerateArtifacts_job_names_nodup_witness :
    ∃ cfg,
      GenerateArtifacts (sampleExtension [twoOrgs]
          [aliceOnly "/tmp/iou/fsc/crypto" "/tmp/iou/fsc/crypto/alice/tls"])
        = Artifacts.generated cfg ∧
      (cfg.ScrapeConfigs.map (fun job => job.JobName)).Nodup :=
  GenerateArtifacts_job_names_nodup
    (sampleExtension [twoOrgs]
      [aliceOnly "/tmp/iou/fsc/crypto" "/tmp/iou/fsc/crypto/alice/tls"])
    twoOrgs (aliceOnly "/tmp/iou/fsc/crypto" "/tmp/iou/fsc/crypto/alice/tls")
    rfl rfl rfl (by decide) (by decide)

end monitoring

/-! ## The TLS paths -/

namespace monitoring

/-- A text that is `a` followed by `b` ends with `b`. -/
theorem hasSuffix_append (a b : String) : strings.HasSuffix (a ++ b) b := by
  simp only [strings.HasSuffix, String.data_append]
  exact List.suffix_append _ _

/-- C4, as amended: when the first platform of type `fsc.TopologyName` is a
`*fsc.Platform`, then for every node of it whose TLS directory begins with the crypto
directory, the three TLS paths of its job begin with `/etc/prometheus/fsc/crypto`;
and each of them ends with its file name (`/ca.crt`, `/server.crt`, `/server.key`)
whenever the crypto directory does not occur again in the remainder of the path, that
is in the rest of the TLS directory followed by the file name. -/
theorem fscScrapes_tls_paths (n : Extension) (platform : fsc.Platform)
    (rest : List api.Platform) (p : Prometheus)
    (h : n.platform.GetContext.PlatformsByType api.TopologyName.fsc
      = api.Platform.fscPlatform platform :: rest) :
    ∃ jobs,
      fscScrapes n p = some { p with ScrapeConfigs := p.ScrapeConfigs ++ jobs } ∧
      List.Forall₂
        (fun peer job =>
          ∀ suffix, platform.NodeLocalTLSDir peer = platform.CryptoPath ++ suffix →
            ∃ tls, job.TLSConfig = some tls ∧
              strings.HasPrefix tls.CAFile "/etc/prometheus/fsc/crypto" ∧
              strings.HasPrefix tls.CertFile "/etc/prometheus/fsc/crypto" ∧
              strings.HasPrefix tls.KeyFile "/etc/prometheus/fsc/crypto" ∧
              (¬ strings.Contains (suffix ++ "/ca.crt") platform.CryptoPath →
                strings.HasSuffix tls.CAFile "/ca.crt") ∧
              (¬ strings.Contains (suffix ++ "/server.crt") platform.CryptoPath →
                strings.HasSuffix tls.CertFile "/server.crt") ∧
              (¬ strings.Contains (suffix ++ "/server.key") platform.CryptoPath →
                strings.HasSuffix tls.KeyFile "/server.key"))
        platform.Peers jobs := by
  refine ⟨platform.Peers.map (fscJob platform), fscScrapes_eq n platform rest p h, ?_⟩
  rw [List.forall₂_map_right_iff]
  apply List.forall₂_same.mpr
  intro peer _ suffix hdir
  refine ⟨_, rfl, ?_, ?_, ?_, ?_, ?_, ?_⟩
  · simp only [hdir, String.append_assoc]
    exact strings.Replace_hasPrefix _ _ _
  · simp only [hdir, String.append_assoc]
    exact strings.Replace_hasPrefix _ _ _
  · simp only [hdir, String.append_assoc]
    exact strings.Replace_hasPrefix _ _ _
  · intro hfree
    simp only [hdir, String.append_assoc]
    rw [strings.Replace_append_of_not_contains _ _ _ hfree, ← String.append_assoc]
    exact hasSuffix_append _ _
  · intro hfree
    simp only [hdir, String.append_assoc]
    rw [strings.Replace_append_of_not_contains _ _ _ hfree, ← String.append_assoc]
    exact hasSuffix_append _ _
  · intro hfree
    simp only [hdir, String.append_assoc]
    rw [strings.Replace_append_of_not_contains _ _ _ hfree, ← String.append_assoc]
    exact hasSuffix_append _ _

/-- C4, witness: the node `alice` with TLS directory `/tmp/iou/fsc/crypto/alice/tls`
under the crypto directory `/tmp/iou/fsc/crypto`, which does not occur again in the
remainder of any of the three paths. -/
theorem fscScrapes_tls_paths_witness :
    (∃ jobs,
      fscScrapes
          (sampleExtension []
            [aliceOnly "/tmp/iou/fsc/crypto" "/tmp/iou/fsc/crypto/alice/tls"])
          { Global := { ScrapeInterval := "15s", EvaluationInterval := "15s" }
            ScrapeConfigs := [] }
        = some
          { Global := { ScrapeInterval := "15s", EvaluationInterval := "15s" }
            ScrapeConfigs := [] ++ jobs } ∧
      List.Forall₂
        (fun (_ : fsc.Peer) (job : ScrapeConfig) =>
          ∀ suffix : String, "/tmp/iou/fsc/crypto/alice/tls" = "/tmp/iou/fsc/crypto" ++ suffix →
            ∃ tls, job.TLSConfig = some tls ∧
              strings.HasPrefix tls.CAFile "/etc/prometheus/fsc/crypto" ∧
              strings.HasPrefix tls.CertFile "/etc/prometheus/fsc/crypto" ∧
              strings.HasPrefix tls.KeyFile "/etc/prometheus/fsc/crypto" ∧
              (¬ strings.Contains (suffix ++ "/ca.crt") "/tmp/iou/fsc/crypto" →
                strings.HasSuffix tls.CAFile "/ca.crt") ∧
              (¬ strings.Contains (suffix ++ "/server.crt") "/tmp/iou/fsc/crypto" →
                strings.HasSuffix tls.CertFile "/server.crt") ∧
              (¬ strings.Contains (suffix ++ "/server.key") "/tmp/iou/fsc/crypto" →
                strings.HasSuffix tls.KeyFile "/server.key"))
        [({ Name := "alice" } : fsc.Peer)] jobs) ∧
    ("/tmp/iou/fsc/crypto/alice/tls" = "/tmp/iou/fsc/crypto" ++ "/alice/tls" ∧
      ¬ strings.Contains ("/alice/tls" ++ "/ca.crt") "/tmp/iou/fsc/crypto" ∧
      ¬ strings.Contains ("/alice/tls" ++ "/server.crt") "/tmp/iou/fsc/crypto" ∧
      ¬ strings.Contains ("/alice/tls" ++ "/server.key") "/tmp/iou/fsc/crypto") :=
  ⟨fscScrapes_tls_paths
      (sampleExtension [] [aliceOnly "/tmp/iou/fsc/crypto" "/tmp/iou/fsc/crypto/alice/tls"])
      (aliceOnly "/tmp/iou/fsc/crypto" "/tmp/iou/fsc/crypto/alice/tls") []
      { Global := { ScrapeInterval := "15s", EvaluationInterval := "15s" }
        ScrapeConfigs := [] }
      rfl,
    by decide⟩

/-- C4, counterexample: with the crypto directory `/c` and the TLS directory `/c/tls`,
which begins with it, the CA path of the job of `alice` does not end with `/ca.crt`:
the occurrence of `/c` in the file name is replaced too. -/
theorem fscScrapes_tls_paths_counterexample :
    strings.HasPrefix "/c/tls" "/c" ∧
    fscScrapes (sampleExtension [] [aliceOnly "/c" "/c/tls"])
        { Global := { ScrapeInterval := "15s", EvaluationInterval := "15s" }
          ScrapeConfigs := [] }
      = some
        { Global := { ScrapeInterval := "15s", EvaluationInterval := "15s" }
          ScrapeConfigs :=
            [{ JobName := "FSC Node alice"
               Scheme := "https"
               StaticConfigs := [{ Targets := ["127.0.0.1:20031"] }]
               TLSConfig := some
                 { CAFile := "/etc/prometheus/fsc/crypto/tls/etc/prometheus/fsc/cryptoa.crt"
                   CertFile := "/etc/prometheus/fsc/crypto/tls/server.crt"
                   KeyFile := "/etc/prometheus/fsc/crypto/tls/server.key"
                   ServerName := ""
                   InsecureSkipVerify := true } }] } ∧
    ¬ strings.HasSuffix "/etc/prometheus/fsc/crypto/tls/etc/prometheus/fsc/cryptoa.crt"
        "/ca.crt" := by
  decide

/-- C5, as amended: with monitoring enabled, every platform of type
`fabric.TopologyName` a `*fabric.Platform` and a `*fsc.Platform` first among those of
type `fsc.TopologyName`, if the crypto directory and the mount point
`/etc/prometheus/fsc/crypto` do not overlap (neither occurs in the other, and no
non-empty beginning of one is an ending of the other), then no TLS path of the
configuration `GenerateArtifacts` builds contains the crypto directory. -/
theorem GenerateArtifacts_no_host_path (n : Extension) (fps : List fabric.Platform)
    (platform : fsc.Platform) (rest : List api.Platform)
    (hon : n.platform.PrometheusGrafana = true)
    (hfabric : n.platform.GetContext.PlatformsByType api.TopologyName.fabric
      = fps.map api.Platform.fabricPlatform)
    (hfsc : n.platform.GetContext.PlatformsByType api.TopologyName.fsc
      = api.Platform.fscPlatform platform :: rest)
    (h1 : ¬ strings.Contains "/etc/prometheus/fsc/crypto" platform.CryptoPath)
    (h2 : ¬ strings.Contains platform.CryptoPath "/etc/prometheus/fsc/crypto")
    (h3 : ¬ strings.Overlap platform.CryptoPath "/etc/prometheus/fsc/crypto")
    (h4 : ¬ strings.Overlap "/etc/prometheus/fsc/crypto" platform.CryptoPath) :
    ∃ cfg,
      GenerateArtifacts n = Artifacts.generated cfg ∧
      ∀ job ∈ cfg.ScrapeConfigs, ∀ tls, job.TLSConfig = some tls →
        ¬ strings.Contains tls.CAFile platform.CryptoPath ∧
        ¬ strings.Contains tls.CertFile platform.CryptoPath ∧
        ¬ strings.Contains tls.KeyFile platform.CryptoPath := by
  refine ⟨_, GenerateArtifacts_eq n fps platform rest hon hfabric hfsc, ?_⟩
  intro job hjob tls htls
  simp only [List.mem_cons, List.mem_append, List.mem_flatMap, List.mem_map] at hjob
  rcases hjob with rfl | ⟨fp, -, hfp⟩ | ⟨peer, -, rfl⟩
  · simp at htls
  · simp only [fabricJobs, List.mem_cons, List.mem_map] at hfp
    rcases hfp with rfl | ⟨org, -, rfl⟩
    · simp at htls
    · simp at htls
  · simp only [fscJob, Option.some.injEq] at htls
    subst htls
    exact ⟨strings.Replace_not_contains _ _ _ h1 h2 h3 h4,
      strings.Replace_not_contains _ _ _ h1 h2 h3 h4,
      strings.Replace_not_contains _ _ _ h1 h2 h3 h4⟩

/-- C5, witness: the crypto directory `/tmp/iou/fsc/crypto`. -/
theorem GenerateArtifacts_no_host_path_witness :
    ∃ cfg,
      GenerateArtifacts (sampleExtension [twoOrgs]
          [aliceOnly "/tmp/iou/fsc/crypto" "/tmp/iou/fsc/crypto/alice/tls"])
        = Artifacts.generated cfg ∧
      ∀ job ∈ cfg.ScrapeConfigs, ∀ tls, job.TLSConfig = some tls →
        ¬ strings.Contains tls.CAFile "/tmp/iou/fsc/crypto" ∧
        ¬ strings.Contains tls.CertFile "/tmp/iou/fsc/crypto" ∧
        ¬ strings.Contains tls.KeyFile "/tmp/iou/fsc/crypto" :=
  GenerateArtifacts_no_host_path
    (sampleExtension [twoOrgs]
      [aliceOnly "/tmp/iou/fsc/crypto" "/tmp/iou/fsc/crypto/alice/tls"])
    [twoOrgs] (aliceOnly "/tmp/iou/fsc/crypto" "/tmp/iou/fsc/crypto/alice/tls") []
    rfl rfl rfl (by decide) (by decide)
    ((not_congr (strings.overlap_iff _ _)).mpr (by decide))
    ((not_congr (strings.overlap_iff _ _)).mpr (by decide))

/-- C5, counterexample: with the crypto directory `/fsc/crypto`, the rewritten CA path
of `alice` still contains `/fsc/crypto`, because the mount point does. -/
theorem GenerateArtifacts_no_host_path_counterexample :
    fscCryptoDir (sampleExtension [] [aliceOnly "/fsc/crypto" "/fsc/crypto/alice/tls"])
      = some "/fsc/crypto" ∧
    (GenerateArtifacts
        (sampleExtension [] [aliceOnly "/fsc/crypto" "/fsc/crypto/alice/tls"])).jobs.filterMap
        (fun job => job.TLSConfig)
      = [{ CAFile := "/etc/prometheus/fsc/crypto/alice/tls/ca.crt"
           CertFile := "/etc/prometheus/fsc/crypto/alice/tls/server.crt"
           KeyFile := "/etc/prometheus/fsc/crypto/alice/tls/server.key"
           ServerName := ""
           InsecureSkipVerify := true }] ∧
    strings.Contains "/etc/prometheus/fsc/crypto/alice/tls/ca.crt" "/fsc/crypto" := by
  decide

end monitoring

/-! ## The runs of `PostRun` -/

namespace monitoring

/-- A call that leaves the run going was issued in a run that was going. -/
theorem Run.call_ok (env : Env) (r : Run) (a : Action)
    (h : (r.call env a).failed = false) :
    r.failed = false ∧ (r.call env a).trace = r.trace ++ [a] := by
  unfold Run.call at h ⊢
  by_cases hf : r.failed = true
  · rw [if_pos hf] at h
    rw [hf] at h
    exact absurd h (by decide)
  · rw [if_neg hf]
    exact ⟨by simpa using hf, rfl⟩

/-- A statement that leaves the run going was executed in a run that was going. -/
theorem Run.perform_ok (r : Run) (a : Action) (h : (r.perform a).failed = false) :
    r.failed = false ∧ (r.perform a).trace = r.trace ++ [a] := by
  unfold Run.perform at h ⊢
  by_cases hf : r.failed = true
  · rw [if_pos hf] at h
    rw [hf] at h
    exact absurd h (by decide)
  · rw [if_neg hf]
    exact ⟨by simpa using hf, rfl⟩

/-- A run of `dockerGrafana` that is not aborted. -/
theorem dockerGrafana_ok (env : Env) (n : Extension) (r : Run)
    (h : (dockerGrafana env n r).failed = false) :
    r.failed = false ∧
    ∃ config hostConfig networkingConfig containerID,
      config.Image = "grafana/grafana:latest" ∧
      (dockerGrafana env n r).trace = r.trace ++
        [Action.NewClientWithOpts,
         Action.NetworkInfo n.platform.NetworkID,
         Action.ContainerCreate config hostConfig networkingConfig
           (n.platform.NetworkID ++ "-grafana"),
         Action.NetworkConnect n.platform.NetworkID containerID n.platform.NetworkID,
         Action.ContainerStart containerID,
         Action.Sleep (3 * time.Second),
         Action.GoContainerLogs containerID] := by
  simp only [dockerGrafana] at h ⊢
  have h7 := Run.perform_ok _ _ h
  have h6 := Run.perform_ok _ _ h7.1
  have h5 := Run.call_ok _ _ _ h6.1
  have h4 := Run.call_ok _ _ _ h5.1
  have h3 := Run.call_ok _ _ _ h4.1
  have h2 := Run.call_ok _ _ _ h3.1
  have h1 := Run.call_ok _ _ _ h2.1
  have htrace := h7.2
  conv at htrace =>
    rhs
    rw [h6.2, h5.2, h4.2, h3.2, h2.2, h1.2]
    simp only [List.append_assoc, List.singleton_append, List.cons_append, List.nil_append]
  exact ⟨h1.1, _, _, _, _, rfl, htrace⟩


/-- A run of `dockerPrometheus` that is not aborted. -/
theorem dockerPrometheus_ok (env : Env) (n : Extension) (r : Run)
    (h : (dockerPrometheus env n r).failed = false) :
    r.failed = false ∧
    ∃ mounts config hostConfig networkingConfig containerID,
      prometheusMounts env n = some mounts ∧
      hostConfig.Mounts = mounts ∧
      config.Image = "prom/prometheus:latest" ∧
      (dockerPrometheus env n r).trace = r.trace ++
        [Action.NewClientWithOpts,
         Action.NetworkInfo n.platform.NetworkID,
         Action.LocalIP n.platform.NetworkID,
         Action.ContainerCreate config hostConfig networkingConfig
           (n.platform.NetworkID ++ "-prometheus"),
         Action.NetworkConnect n.platform.NetworkID containerID n.platform.NetworkID,
         Action.ContainerStart containerID,
         Action.GoContainerLogs containerID] := by
  cases hm : prometheusMounts env n with
  | none =>
    simp only [dockerPrometheus, hm, Run.panic] at h
    exact absurd h (by decide)
  | some mounts =>
    simp only [dockerPrometheus, hm] at h ⊢
    have h7 := Run.perform_ok _ _ h
    have h6 := Run.call_ok _ _ _ h7.1
    have h5 := Run.call_ok _ _ _ h6.1
    have h4 := Run.call_ok _ _ _ h5.1
    have h3 := Run.call_ok _ _ _ h4.1
    have h2 := Run.call_ok _ _ _ h3.1
    have h1 := Run.call_ok _ _ _ h2.1
    have htrace := h7.2
    conv at htrace =>
      rhs
      rw [h6.2, h5.2, h4.2, h3.2, h2.2, h1.2]
      simp only [List.append_assoc, List.singleton_append, List.cons_append, List.nil_append]
    exact ⟨h1.1, _, _, _, _, _, rfl, rfl, rfl, htrace⟩

/-- C8: in a run of `PostRun` with monitoring enabled that is not aborted, the calls
are, in this order: for Prometheus the client, the network lookup, the local address,
the creation of the container, its connection to the network, its start and the start
of the log forwarding; a wait of thirty seconds; for Grafana the client, the network
lookup, the creation of the container, its connection to the same network, its start,
a wait of three seconds and the start of the log forwarding.  So the calls that
create, connect and start a container, and the waits, are: create, connect, start
Prometheus, wait; create, connect, start Grafana, wait; and the second wait is shorter
than the first. -/
theorem PostRun_order (env : Env) (n : Extension) (load : Bool)
    (hon : n.platform.PrometheusGrafana = true)
    (hok : (PostRun env n load).failed = false) :
    ∃ config1 hostConfig1 networkingConfig1 containerID1
      config2 hostConfig2 networkingConfig2 containerID2,
      config1.Image = "prom/prometheus:latest" ∧
      config2.Image = "grafana/grafana:latest" ∧
      (PostRun env n load).trace =
        [Action.NewClientWithOpts,
         Action.NetworkInfo n.platform.NetworkID,
         Action.LocalIP n.platform.NetworkID,
         Action.ContainerCreate config1 hostConfig1 networkingConfig1
           (n.platform.NetworkID ++ "-prometheus"),
         Action.NetworkConnect n.platform.NetworkID containerID1 n.platform.NetworkID,
         Action.ContainerStart containerID1,
         Action.GoContainerLogs containerID1,
         Action.Sleep (30 * time.Second),
         Action.NewClientWithOpts,
         Action.NetworkInfo n.platform.NetworkID,
         Action.ContainerCreate config2 hostConfig2 networkingConfig2
           (n.platform.NetworkID ++ "-grafana"),
         Action.NetworkConnect n.platform.NetworkID containerID2 n.platform.NetworkID,
         Action.ContainerStart containerID2,
         Action.Sleep (3 * time.Second),
         Action.GoContainerLogs containerID2] ∧
      (PostRun env n load).trace.filter Action.isLifecycle =
        [Action.ContainerCreate config1 hostConfig1 networkingConfig1
           (n.platform.NetworkID ++ "-prometheus"),
         Action.NetworkConnect n.platform.NetworkID containerID1 n.platform.NetworkID,
         Action.ContainerStart containerID1,
         Action.Sleep (30 * time.Second),
         Action.ContainerCreate config2 hostConfig2 networkingConfig2
           (n.platform.NetworkID ++ "-grafana"),
         Action.NetworkConnect n.platform.NetworkID containerID2 n.platform.NetworkID,
         Action.ContainerStart containerID2,
         Action.Sleep (3 * time.Second)] ∧
      3 * time.Second < 30 * time.Second := by
  simp only [PostRun, hon, Bool.not_true, Bool.false_eq_true, if_false] at hok ⊢
  obtain ⟨hg, c2, h2, k2, id2, himg2, htr2⟩ := dockerGrafana_ok env n _ hok
  obtain ⟨hs, htrs⟩ := Run.perform_ok _ _ hg
  obtain ⟨-, mounts, c1, h1, k1, id1, -, -, himg1, htr1⟩ := dockerPrometheus_ok env n _ hs
  have htrace := htr2
  conv at htrace =>
    rhs
    rw [htrs, htr1]
    simp only [List.append_assoc, List.singleton_append, List.cons_append, List.nil_append]
  refine ⟨c1, h1, k1, id1, c2, h2, k2, id2, himg1, himg2, htrace, ?_, by decide⟩
  rw [htrace]
  rfl


/-- C8, witness: a runtime in which every call succeeds. -/
theorem PostRun_order_witness :
    (PostRun healthyEnv (sampleExtension [twoOrgs] [noNodes]) true).failed = false ∧
    ∃ config1 hostConfig1 networkingConfig1 containerID1
      config2 hostConfig2 networkingConfig2 containerID2,
      config1.Image = "prom/prometheus:latest" ∧
      config2.Image = "grafana/grafana:latest" ∧
      (PostRun healthyEnv (sampleExtension [twoOrgs] [noNodes]) true).trace =
        [Action.NewClientWithOpts,
         Action.NetworkInfo "iou",
         Action.LocalIP "iou",
         Action.ContainerCreate config1 hostConfig1 networkingConfig1 ("iou" ++ "-prometheus"),
         Action.NetworkConnect "iou" containerID1 "iou",
         Action.ContainerStart containerID1,
         Action.GoContainerLogs containerID1,
         Action.Sleep (30 * time.Second),
         Action.NewClientWithOpts,
         Action.NetworkInfo "iou",
         Action.ContainerCreate config2 hostConfig2 networkingConfig2 ("iou" ++ "-grafana"),
         Action.NetworkConnect "iou" containerID2 "iou",
         Action.ContainerStart containerID2,
         Action.Sleep (3 * time.Second),
         Action.GoContainerLogs containerID2] ∧
      (PostRun healthyEnv (sampleExtension [twoOrgs] [noNodes]) true).trace.filter
          Action.isLifecycle =
        [Action.ContainerCreate config1 hostConfig1 networkingConfig1 ("iou" ++ "-prometheus"),
         Action.NetworkConnect "iou" containerID1 "iou",
         Action.ContainerStart containerID1,
         Action.Sleep (30 * time.Second),
         Action.ContainerCreate config2 hostConfig2 networkingConfig2 ("iou" ++ "-grafana"),
         Action.NetworkConnect "iou" containerID2 "iou",
         Action.ContainerStart containerID2,
         Action.Sleep (3 * time.Second)] ∧
      3 * time.Second < 30 * time.Second :=
  ⟨by decide,
    PostRun_order healthyEnv (sampleExtension [twoOrgs] [noNodes]) true rfl (by decide)⟩

/-- C9, as amended: when the first platform of type `fsc.TopologyName` is a
`*fsc.Platform`, the rewrite and the crypto mount of the Prometheus container agree:
the directory `replace` substitutes away is the crypto path of that platform, which
is the source of the second bind mount of every Prometheus container that is
created, and the text it substitutes in, `/etc/prometheus/fsc/crypto`, is the target
of that mount.  Hence for every node whose TLS directory is the crypto directory
followed by a suffix such that the suffix followed by the file name does not contain
the crypto directory, each TLS path of its job is the mount target followed by the
same suffix and file name. -/
theorem replace_agrees_with_mount (env : Env) (n : Extension) (platform : fsc.Platform)
    (rest : List api.Platform) (p : Prometheus)
    (h : n.platform.GetContext.PlatformsByType api.TopologyName.fsc
      = api.Platform.fscPlatform platform :: rest) :
    fscCryptoDir n = some platform.CryptoPath ∧
    (∀ s, replace n s
      = some (strings.Replace s platform.CryptoPath "/etc/prometheus/fsc/crypto")) ∧
    (∀ r, (dockerPrometheus env n r).failed = false →
      ∃ config hostConfig networkingConfig containerName,
        Action.ContainerCreate config hostConfig networkingConfig containerName
          ∈ (dockerPrometheus env n r).trace ∧
        hostConfig.Mounts =
          [{ Kind := "bind"
             Source := prometheusConfigFilePath env n
             Target := "/etc/prometheus/prometheus.yml" },
           { Kind := "bind"
             Source := platform.CryptoPath
             Target := "/etc/prometheus/fsc/crypto" }]) ∧
    ∃ jobs,
      fscScrapes n p = some { p with ScrapeConfigs := p.ScrapeConfigs ++ jobs } ∧
      List.Forall₂
        (fun peer job =>
          ∀ suffix, platform.NodeLocalTLSDir peer = platform.CryptoPath ++ suffix →
            ¬ strings.Contains (suffix ++ "/ca.crt") platform.CryptoPath →
            ¬ strings.Contains (suffix ++ "/server.crt") platform.CryptoPath →
            ¬ strings.Contains (suffix ++ "/server.key") platform.CryptoPath →
            job.TLSConfig = some
              { CAFile := "/etc/prometheus/fsc/crypto" ++ suffix ++ "/ca.crt"
                CertFile := "/etc/prometheus/fsc/crypto" ++ suffix ++ "/server.crt"
                KeyFile := "/etc/prometheus/fsc/crypto" ++ suffix ++ "/server.key"
                ServerName := ""
                InsecureSkipVerify := true })
        platform.Peers jobs := by
  have hdir : fscCryptoDir n = some platform.CryptoPath := by
    simp [fscCryptoDir, h]
  refine ⟨hdir, ?_, ?_, platform.Peers.map (fscJob platform),
    fscScrapes_eq n platform rest p h, ?_⟩
  · intro s
    simp [replace, hdir]
  · intro r hr
    obtain ⟨-, mounts, config, hostConfig, networkingConfig, containerID, hm, hmounts, -,
      htrace⟩ := dockerPrometheus_ok env n r hr
    refine ⟨config, hostConfig, networkingConfig, n.platform.NetworkID ++ "-prometheus",
      ?_, ?_⟩
    · rw [htrace]
      simp
    · rw [hmounts]
      simp only [prometheusMounts, hdir, Option.map_some', Option.some.injEq] at hm
      exact hm.symm
  · rw [List.forall₂_map_right_iff]
    apply List.forall₂_same.mpr
    intro peer _ suffix hsuffix hca hcert hkey
    simp only [fscJob, hsuffix, String.append_assoc]
    rw [strings.Replace_append_of_not_contains _ _ _ hca,
      strings.Replace_append_of_not_contains _ _ _ hcert,
      strings.Replace_append_of_not_contains _ _ _ hkey]

/-- C9, witness: the node `alice` under the crypto directory `/tmp/iou/fsc/crypto` in
a runtime in which every call succeeds. -/
theorem replace_agrees_with_mount_witness :
    (dockerPrometheus healthyEnv
        (sampleExtension []
          [aliceOnly "/tmp/iou/fsc/crypto" "/tmp/iou/fsc/crypto/alice/tls"])
        { trace := [], failed := false }).failed = false ∧
    ¬ strings.Contains ("/alice/tls" ++ "/ca.crt") "/tmp/iou/fsc/crypto" ∧
    ¬ strings.Contains ("/alice/tls" ++ "/server.crt") "/tmp/iou/fsc/crypto" ∧
    ¬ strings.Contains ("/alice/tls" ++ "/server.key") "/tmp/iou/fsc/crypto" ∧
    fscScrapes
        (sampleExtension []
          [aliceOnly "/tmp/iou/fsc/crypto" "/tmp/iou/fsc/crypto/alice/tls"])
        { Global := { ScrapeInterval := "15s", EvaluationInterval := "15s" }
          ScrapeConfigs := [] }
      = some
        { Global := { ScrapeInterval := "15s", EvaluationInterval := "15s" }
          ScrapeConfigs :=
            [{ JobName := "FSC Node alice"
               Scheme := "https"
               StaticConfigs := [{ Targets := ["127.0.0.1:20031"] }]
               TLSConfig := some
                 { CAFile := "/etc/prometheus/fsc/crypto" ++ "/alice/tls" ++ "/ca.crt"
                   CertFile := "/etc/prometheus/fsc/crypto" ++ "/alice/tls" ++ "/server.crt"
                   KeyFile := "/etc/prometheus/fsc/crypto" ++ "/alice/tls" ++ "/server.key"
                   ServerName := ""
                   InsecureSkipVerify := true } }] } ∧
    (fscCryptoDir
        (sampleExtension []
          [aliceOnly "/tmp/iou/fsc/crypto" "/tmp/iou/fsc/crypto/alice/tls"])
      = some "/tmp/iou/fsc/crypto" ∧
    (∀ s, replace
        (sampleExtension []
          [aliceOnly "/tmp/iou/fsc/crypto" "/tmp/iou/fsc/crypto/alice/tls"]) s
      = some (strings.Replace s "/tmp/iou/fsc/crypto" "/etc/prometheus/fsc/crypto")) ∧
    (∀ r, (dockerPrometheus healthyEnv
        (sampleExtension []
          [aliceOnly "/tmp/iou/fsc/crypto" "/tmp/iou/fsc/crypto/alice/tls"]) r).failed
        = false →
      ∃ config hostConfig networkingConfig containerName,
        Action.ContainerCreate config hostConfig networkingConfig containerName
          ∈ (dockerPrometheus healthyEnv
              (sampleExtension []
                [aliceOnly "/tmp/iou/fsc/crypto" "/tmp/iou/fsc/crypto/alice/tls"]) r).trace ∧
        hostConfig.Mounts =
          [{ Kind := "bind"
             Source := "/tmp/iou/prometheus/prometheus.yml"
             Target := "/etc/prometheus/prometheus.yml" },
           { Kind := "bind"
             Source := "/tmp/iou/fsc/crypto"
             Target := "/etc/prometheus/fsc/crypto" }])) := by
  have hthm := replace_agrees_with_mount healthyEnv
    (sampleExtension [] [aliceOnly "/tmp/iou/fsc/crypto" "/tmp/iou/fsc/crypto/alice/tls"])
    (aliceOnly "/tmp/iou/fsc/crypto" "/tmp/iou/fsc/crypto/alice/tls") []
    { Global := { ScrapeInterval := "15s", EvaluationInterval := "15s" }
      ScrapeConfigs := [] }
    rfl
  refine ⟨by decide, by decide, by decide, by decide, by decide, hthm.1, hthm.2.1, ?_⟩
  have hmount := hthm.2.2.1
  have hsrc : prometheusConfigFilePath healthyEnv
      (sampleExtension [] [aliceOnly "/tmp/iou/fsc/crypto" "/tmp/iou/fsc/crypto/alice/tls"])
      = "/tmp/iou/prometheus/prometheus.yml" := by decide
  rw [hsrc] at hmount
  exact hmount

/-- C9, counterexample: with the crypto directory `/s`, the TLS directory `/s/tls` is
the crypto directory followed by the suffix `/tls`, which does not contain `/s`; yet
the certificate path is not the mount target followed by `/tls/server.crt`, because
`/s` occurs in the file name. -/
theorem replace_agrees_with_mount_counterexample :
    ("/s/tls" : String) = "/s" ++ "/tls" ∧
    ¬ strings.Contains "/tls" "/s" ∧
    fscScrapes (sampleExtension [] [aliceOnly "/s" "/s/tls"])
        { Global := { ScrapeInterval := "15s", EvaluationInterval := "15s" }
          ScrapeConfigs := [] }
      = some
        { Global := { ScrapeInterval := "15s", EvaluationInterval := "15s" }
          ScrapeConfigs :=
            [{ JobName := "FSC Node alice"
               Scheme := "https"
               StaticConfigs := [{ Targets := ["127.0.0.1:20031"] }]
               TLSConfig := some
                 { CAFile := "/etc/prometheus/fsc/crypto/tls/ca.crt"
                   CertFile :=
                     "/etc/prometheus/fsc/crypto/tls/etc/prometheus/fsc/cryptoerver.crt"
                   KeyFile :=
                     "/etc/prometheus/fsc/crypto/tls/etc/prometheus/fsc/cryptoerver.key"
                   ServerName := ""
                   InsecureSkipVerify := true } }] } ∧
    "/etc/prometheus/fsc/crypto/tls/etc/prometheus/fsc/cryptoerver.crt"
      ≠ "/etc/prometheus/fsc/crypto" ++ "/tls" ++ "/server.crt" := by
  decide

end monitoring
